import Mathlib

/-!
Shallow embedding of the CSV import/export subsystem of the repository
(`src/unnamed/part_002`, a CSV helper module shared by six schema adapters)
together with the merge-on-import logic of the section components
(`src/components/JapaneseSection.tsx`, `src/unnamed/part_001`).

Modelling conventions:
* JavaScript strings are Lean `String` (lists of characters).
* JavaScript numbers are modelled by `JSNum`: either `NaN` or an integer.
  The code only ever produces and consumes integral numbers (timestamps from
  `Date.now()`, integral ratings), so `Number(...)` is modelled on optionally
  signed decimal integer literals; every other string maps to `NaN`.
  Floating point precision is outside the model.
* `Date.now()` is an external input: each parse function receives the current
  time as an explicit `now : Nat` parameter, held fixed for the call.
* `undefined` for optional fields is `Option.none`; a missing array index
  (`cols[k]` past the end) is `List.get?` returning `none`.
-/

set_option maxRecDepth 10000

/-- JavaScript whitespace (the set recognised by `String.prototype.trim` and
by `Number(...)` coercion): tab, LF, VT, FF, CR, space, NBSP, ogham space,
general punctuation spaces, LS, PS, narrow nbsp, math space, ideographic
space, and the ZWNBSP/BOM character. -/
def isJsWs (c : Char) : Bool :=
  let n := c.toNat
  n == 0x9 || n == 0xA || n == 0xB || n == 0xC || n == 0xD || n == 0x20 ||
  n == 0xA0 || n == 0x1680 || (0x2000 ≤ n && n ≤ 0x200A) || n == 0x2028 ||
  n == 0x2029 || n == 0x202F || n == 0x205F || n == 0x3000 || n == 0xFEFF

/-- `String.prototype.trim` on a character list. -/
def jsTrimChars (l : List Char) : List Char :=
  ((l.dropWhile isJsWs).reverse.dropWhile isJsWs).reverse

/-- The decimal digit character for `d < 10` (as produced by JavaScript
number-to-string conversion). -/
def digitChar : Nat → Char
  | 0 => '0' | 1 => '1' | 2 => '2' | 3 => '3' | 4 => '4'
  | 5 => '5' | 6 => '6' | 7 => '7' | 8 => '8' | _ => '9'

/-- Numeric value of a decimal digit character, `none` on anything else. -/
def digitVal (c : Char) : Option Nat :=
  if '0' ≤ c ∧ c ≤ '9' then some (c.toNat - 48) else none

/-- Left-to-right accumulation of a decimal digit string. -/
def parseDigitsAux : List Char → Nat → Option Nat
  | [], acc => some acc
  | c :: rest, acc =>
    match digitVal c with
    | some d => parseDigitsAux rest (10 * acc + d)
    | none => none

/-- A non-empty all-digit string read as a natural number. -/
def parseDigits (ds : List Char) : Option Nat :=
  match ds with
  | [] => none
  | _ => parseDigitsAux ds 0

/-- Fuel-driven decimal digit expansion (structural recursion so that the
kernel can evaluate it; the fuel is always sufficient at use sites). -/
def natToDigitsF : Nat → Nat → List Char
  | 0, _ => []
  | fuel + 1, n =>
    if n < 10 then [digitChar n]
    else natToDigitsF fuel (n / 10) ++ [digitChar (n % 10)]

/-- Decimal digit expansion of a natural number, most significant first
(JavaScript `String(n)` for natural `n`). -/
def natToDigits (n : Nat) : List Char := natToDigitsF (n + 1) n

/-- JavaScript `String(n)` for a natural number. -/
def natToString (n : Nat) : String := String.mk (natToDigits n)

/-- JavaScript `String(n)` for an integral number. -/
def intToString (n : Int) : String :=
  if n < 0 then String.mk ('-' :: natToDigits n.natAbs) else natToString n.toNat

/-- A JavaScript number restricted to the integral values this code
manipulates: either an integer or `NaN`. -/
inductive JSNum where
  | nan : JSNum
  | num : Int → JSNum
  deriving DecidableEq, Repr

/-- JavaScript `String(x)` on a `JSNum`. -/
def jsNumToString : JSNum → String
  | .nan => "NaN"
  | .num n => intToString n

/-- JavaScript `Number(s)` on a string, restricted to optionally signed
decimal integer literals (whitespace-trimmed; the empty string is `0`;
anything else is `NaN`). -/
def jsNumber (s : String) : JSNum :=
  match jsTrimChars s.data with
  | [] => .num 0
  | c :: ds =>
    if c = '-' then
      match parseDigits ds with
      | some n => .num (-(n : Int))
      | none => .nan
    else if c = '+' then
      match parseDigits ds with
      | some n => .num (n : Int)
      | none => .nan
    else
      match parseDigits (c :: ds) with
      | some n => .num (n : Int)
      | none => .nan

/-- JavaScript `Number(x)` where `x` is a cell that may be `undefined`
(`Number(undefined)` is `NaN`). -/
def jsNumberOpt : Option String → JSNum
  | none => .nan
  | some s => jsNumber s

/-- JavaScript `v || fallback` on a number `v` with fallback `now`
(`0` and `NaN` are falsy). -/
def jsNumOr (v : JSNum) (now : Nat) : Int :=
  match v with
  | .num n => if n = 0 then (now : Int) else n
  | .nan => (now : Int)

/-- JavaScript `s || fallback` on a string (only `""` is falsy). -/
def jsStrOr (s fallback : String) : String :=
  if s = "" then fallback else s

/-- JavaScript truthiness of a possibly `undefined` string cell. -/
def jsTruthy : Option String → Bool
  | none => false
  | some s => !(s == "")

-- ## CSV primitive engine (from `src/unnamed/part_002`)

/-- Does the character list contain a comma, a newline, or a double quote
(the condition under which `escapeCSV` wraps the field in quotes)? -/
def hasSpecial (l : List Char) : Bool :=
  l.contains ',' || l.contains '\n' || l.contains '"'

/-- `stringified.replace(/"/g, cq)` where `cq` is two double quotes: every
double quote is doubled. -/
def dupQ : List Char → List Char
  | [] => []
  | c :: rest => if c = '"' then '"' :: '"' :: dupQ rest else c :: dupQ rest

/-- The character-level body of `escapeCSV` applied to an already
stringified value. -/
def escChars (l : List Char) : List Char :=
  if hasSpecial l then '"' :: (dupQ l ++ ['"']) else l

/-- `escapeCSV` restricted to a string argument (the stringification step is
the identity there). -/
def escapeCSVStr (s : String) : String := String.mk (escChars s.data)

/-- A value passed to `escapeCSV`: a string, a number, or `undefined`. -/
inductive JsVal where
  | vstr : String → JsVal
  | vnum : JSNum → JsVal
  | vundef : JsVal
  deriving DecidableEq, Repr

/-- `escapeCSV` from the source: `undefined`/`null` become the empty string,
anything else is stringified and quote-escaped when it contains a comma,
newline, or double quote. -/
def escapeCSV : JsVal → String
  | .vundef => ""
  | .vstr s => escapeCSVStr s
  | .vnum n => escapeCSVStr (jsNumToString n)

/-- The scanning loop of `parseCSVLine`: one pass over the characters with
an `inQuotes` flag, a current-field accumulator and the fields emitted so
far.  A quote inside quotes followed by another quote emits a literal quote
and skips both; otherwise a quote toggles the flag; an unquoted comma
terminates the field; everything else is appended. -/
def parseLineAux : List Char → Bool → List Char → List (List Char) → List (List Char)
  | [], _, cur, res => res ++ [cur]
  | '"' :: '"' :: rest, true, cur, res => parseLineAux rest true (cur ++ ['"']) res
  | '"' :: rest, inQuotes, cur, res => parseLineAux rest (!inQuotes) cur res
  | ',' :: rest, false, cur, res => parseLineAux rest false [] (res ++ [cur])
  | c :: rest, inQuotes, cur, res => parseLineAux rest inQuotes (cur ++ [c]) res

/-- `parseCSVLine` from the source, on a character-list line. -/
def parseLineList (l : List Char) : List String :=
  (parseLineAux l false [] []).map String.mk

/-- `parseCSVLine` from the source. -/
def parseCSVLine (line : String) : List String := parseLineList line.data

/-- `csvText.split(/\r?\n/)` : split on LF, consuming an immediately
preceding CR. -/
def splitAux : List Char → List Char → List (List Char)
  | [], cur => [cur]
  | '\r' :: '\n' :: rest, cur => cur :: splitAux rest []
  | '\n' :: rest, cur => cur :: splitAux rest []
  | c :: rest, cur => splitAux rest (cur ++ [c])

/-- `.filter(l => l.trim())` : a line survives iff its trim is non-empty,
i.e. iff it contains a non-whitespace character. -/
def keepLine (l : List Char) : Bool := l.any (fun c => !(isJsWs c))

/-- The line list every parse function starts from:
`csvText.split(/\r?\n/).filter(l => l.trim())`. -/
def csvLines (csvText : String) : List (List Char) :=
  (splitAux csvText.data []).filter keepLine

/-- The data rows of a CSV text: all surviving lines after the header
(the loops run from index 1). -/
def dataLines (csvText : String) : List (List Char) :=
  (csvLines csvText).drop 1

/-- JavaScript `Array.prototype.join(sep)`. -/
def joinStr (sep : String) : List String → String
  | [] => ""
  | [x] => x
  | x :: xs => x ++ sep ++ joinStr sep xs

/-- `cols[k]` read as a mandatory string field: the actual cell when the
index is in range (the column-count guard guarantees this at every use
site), the empty string otherwise. -/
def colD (cols : List String) (k : Nat) : String := (cols.get? k).getD ""

/-- `Date.now().toString() + i` : the id synthesised for a row whose id cell
is falsy. -/
def synthId (now i : Nat) : String := natToString now ++ natToString i

/-- The shared shape of the six parse loops: for each surviving line after
the header, parse the columns, skip the row when there are fewer than
`minCols` columns, and otherwise build a record from the 1-based line
index and the columns. -/
def csvRows (minCols : Nat) (mk : Nat → List String → α) : Nat → List (List Char) → List α
  | _, [] => []
  | i, l :: rest =>
    if (parseLineList l).length < minCols then csvRows minCols mk (i + 1) rest
    else mk i (parseLineList l) :: csvRows minCols mk (i + 1) rest

-- ## Record types (from `src/types.ts`)

/-- `TravelStatus` from `src/types.ts`. -/
inductive TravelStatus where
  | WANT_TO_GO : TravelStatus
  | VISITED : TravelStatus
  deriving DecidableEq, Repr

/-- The string value of a `TravelStatus` enum member. -/
def TravelStatus.str : TravelStatus → String
  | .WANT_TO_GO => "Want to Go"
  | .VISITED => "Visited"

/-- The four string values of the `MediaType` enum in `src/types.ts`. -/
def mediaTypeValues : List String := ["YouTube", "Anime", "Manga", "Drama"]

/-- `JapaneseWord` from `src/types.ts` (`addedAt` is an integral
timestamp). -/
structure JapaneseWord where
  id : String
  word : String
  reading : String
  meaning : String
  meaningJP : String
  exampleSentence : String
  exampleTranslation : String
  addedAt : Int
  deriving DecidableEq, Repr

/-- `TravelSpot` from `src/types.ts`; optional fields are `Option`, and the
rating may be `NaN` when a non-numeric cell was parsed. -/
structure TravelSpot where
  id : String
  name : String
  address : Option String
  status : TravelStatus
  googleMapsUri : Option String
  rating : Option JSNum
  userNotes : Option String
  addedAt : Int
  deriving DecidableEq, Repr

/-- `MediaItem` from `src/types.ts`.  The `type` field is typed `MediaType`
in TypeScript but the parser installs the raw cell through an unchecked
cast, so the embedding uses `String`; `status` is one of three literals,
likewise a `String` here. -/
structure MediaItem where
  id : String
  type : String
  title : String
  status : String
  link : Option String
  rating : Option Int
  notes : Option String
  addedAt : Int
  deriving DecidableEq, Repr

/-- `ExperienceItem` from `src/types.ts`. -/
structure ExperienceItem where
  id : String
  title : String
  company : String
  period : String
  description : String
  tags : List String
  deriving DecidableEq, Repr

/-- `DiaryEntry` from `src/types.ts`. -/
structure DiaryEntry where
  id : String
  date : String
  content : String
  mood : Option String
  images : List String
  addedAt : Int
  deriving DecidableEq, Repr

-- ## Compound-cell splitters

/-- `s.split(';')` on a character list (single-character separator,
left-to-right scan). -/
def splitSemi : List Char → List Char → List (List Char)
  | [], cur => [cur]
  | ';' :: rest, cur => cur :: splitSemi rest []
  | c :: rest, cur => splitSemi rest (cur ++ [c])

/-- `s.split(cs)` where `cs` is three semicolons (non-overlapping
left-to-right matches). -/
def split3Semi : List Char → List Char → List (List Char)
  | [], cur => [cur]
  | ';' :: ';' :: ';' :: rest, cur => cur :: split3Semi rest []
  | c :: rest, cur => split3Semi rest (cur ++ [c])

-- ## Schema adapters (from `src/unnamed/part_002`)

/-- The row constructor in the loop body of `parseJapaneseCSV`. -/
def mkJapaneseWord (now i : Nat) (cols : List String) : JapaneseWord :=
  { id := jsStrOr (colD cols 0) (synthId now i)
    word := colD cols 1
    reading := colD cols 2
    meaning := colD cols 3
    meaningJP := colD cols 4
    exampleSentence := colD cols 5
    exampleTranslation := colD cols 6
    addedAt := jsNumOr (jsNumberOpt (cols.get? 7)) now }

/-- `parseJapaneseCSV` from the source: split into lines, drop blank lines,
skip the header, keep rows with at least 7 columns. -/
def parseJapaneseCSV (now : Nat) (csvText : String) : List JapaneseWord :=
  csvRows 7 (mkJapaneseWord now) 1 (dataLines csvText)

/-- The cells of one generated Vocabulary row, in the source's column
order. -/
def japaneseCells (item : JapaneseWord) : List JsVal :=
  [.vstr item.id, .vstr item.word, .vstr item.reading, .vstr item.meaning,
   .vstr item.meaningJP, .vstr item.exampleSentence,
   .vstr item.exampleTranslation, .vnum (.num item.addedAt)]

/-- `generateJapaneseCSV` from the source: escaped cells joined with
commas, header row first, rows joined with a newline, BOM prefix. -/
def generateJapaneseCSV (items : List JapaneseWord) : String :=
  let headers := joinStr ","
    ["ID", "Word", "Reading", "Meaning (CH)", "Meaning (JP)", "Example",
     "Example Translation", "AddedAt"]
  let rows := items.map (fun item => joinStr "," ((japaneseCells item).map escapeCSV))
  "\uFEFF" ++ joinStr "\n" (headers :: rows)

/-- The `status` allow-list match in `parseTravelCSV`: the English, Chinese
and Japanese spellings of "visited" map to `VISITED`, anything else to the
default `WANT_TO_GO`. -/
def travelStatusOf (c : String) : TravelStatus :=
  if c = "Visited" ∨ c = "去過" ∨ c = "行った" then .VISITED else .WANT_TO_GO

/-- The row constructor in the loop body of `parseTravelCSV`. -/
def mkTravelSpot (now i : Nat) (cols : List String) : TravelSpot :=
  { id := jsStrOr (colD cols 0) (synthId now i)
    name := colD cols 1
    address := cols.get? 2
    status := travelStatusOf (colD cols 3)
    googleMapsUri := cols.get? 4
    rating := if jsTruthy (cols.get? 5) then some (jsNumber (colD cols 5)) else none
    userNotes := cols.get? 6
    addedAt := jsNumOr (jsNumberOpt (cols.get? 7)) now }

/-- `parseTravelCSV` from the source (minimum 3 columns). -/
def parseTravelCSV (now : Nat) (csvText : String) : List TravelSpot :=
  csvRows 3 (mkTravelSpot now) 1 (dataLines csvText)

/-- The `status` normalisation in `parseMediaCSV`: `Completed` and
`Plan to Watch` are kept, anything else becomes `Watching`. -/
def mediaStatusOf (s : String) : String :=
  if s = "Completed" then "Completed"
  else if s = "Plan to Watch" then "Plan to Watch"
  else "Watching"

/-- The row constructor in the loop body of `parseMediaCSV`; the `type`
cell is installed verbatim (the `as MediaType` cast checks nothing). -/
def mkMediaItem (now i : Nat) (cols : List String) : MediaItem :=
  { id := jsStrOr (colD cols 0) (synthId now i)
    type := colD cols 1
    title := colD cols 2
    status := mediaStatusOf (colD cols 3)
    link := cols.get? 4
    rating := match jsNumberOpt (cols.get? 5) with
      | .num n => if n = 0 then none else some n
      | .nan => none
    notes := cols.get? 6
    addedAt := jsNumOr (jsNumberOpt (cols.get? 7)) now }

/-- `parseMediaCSV` from the source (minimum 4 columns). -/
def parseMediaCSV (now : Nat) (csvText : String) : List MediaItem :=
  csvRows 4 (mkMediaItem now) 1 (dataLines csvText)

/-- The row constructor in the loop body of `parseExperienceCSV`; a truthy
tags cell is split on `;` with each element trimmed, a falsy one yields the
empty list. -/
def mkExperienceItem (now i : Nat) (cols : List String) : ExperienceItem :=
  { id := jsStrOr (colD cols 0) (synthId now i)
    title := colD cols 1
    company := colD cols 2
    period := colD cols 3
    description := colD cols 4
    tags := if jsTruthy (cols.get? 5) then
        (splitSemi (colD cols 5).data []).map (fun t => String.mk (jsTrimChars t))
      else [] }

/-- `parseExperienceCSV` from the source (minimum 5 columns). -/
def parseExperienceCSV (now : Nat) (csvText : String) : List ExperienceItem :=
  csvRows 5 (mkExperienceItem now) 1 (dataLines csvText)

/-- The cells of one generated Experience row, in the source's column
order (`tags` joined with `;`). -/
def experienceCells (item : ExperienceItem) : List JsVal :=
  [.vstr item.id, .vstr item.title, .vstr item.company, .vstr item.period,
   .vstr item.description, .vstr (joinStr ";" item.tags)]

/-- `generateExperienceCSV` from the source. -/
def generateExperienceCSV (items : List ExperienceItem) : String :=
  let headers := joinStr "," ["ID", "Title", "Company", "Period", "Description", "Tags"]
  let rows := items.map (fun item => joinStr "," ((experienceCells item).map escapeCSV))
  "\uFEFF" ++ joinStr "\n" (headers :: rows)

/-- The row constructor in the loop body of `parseDiaryCSV`; a truthy
images cell is split on `;;;`, a falsy one yields the empty list. -/
def mkDiaryEntry (now i : Nat) (cols : List String) : DiaryEntry :=
  { id := jsStrOr (colD cols 0) (synthId now i)
    date := colD cols 1
    content := colD cols 2
    mood := cols.get? 3
    images := if jsTruthy (cols.get? 4) then
        (split3Semi (colD cols 4).data []).map String.mk
      else []
    addedAt := jsNumOr (jsNumberOpt (cols.get? 5)) now }

/-- `parseDiaryCSV` from the source (minimum 3 columns). -/
def parseDiaryCSV (now : Nat) (csvText : String) : List DiaryEntry :=
  csvRows 3 (mkDiaryEntry now) 1 (dataLines csvText)

-- ## Merge-on-import (from `src/components/JapaneseSection.tsx` and
-- `src/unnamed/part_001`)

/-- The `setItems` merge step of `handleFileChange` in
`src/components/JapaneseSection.tsx`: incoming records whose `word`
already occurs in the held list are dropped, the rest are prepended. -/
def mergeJapaneseImport (prev newItems : List JapaneseWord) : List JapaneseWord :=
  (newItems.filter (fun it => !(prev.map (·.word)).contains it.word)) ++ prev

/-- The `setItems` merge step of `handleFileChange` in the travel section
(`src/unnamed/part_001`): dedup key is `name`. -/
def mergeTravelImport (prev newItems : List TravelSpot) : List TravelSpot :=
  (newItems.filter (fun it => !(prev.map (·.name)).contains it.name)) ++ prev

/-- JavaScript `Array.prototype.join` at the character-list level. -/
def joinWith (sep : List Char) : List (List Char) → List Char
  | [] => []
  | [x] => x
  | x :: xs => x ++ sep ++ joinWith sep xs

/-- A string free of the two line-terminator characters the line splitter
recognises; such fields survive the generate/parse pipeline intact. -/
def StrOK (s : String) : Prop := ∀ c ∈ s.data, c ≠ '\n' ∧ c ≠ '\r'

instance (s : String) : Decidable (StrOK s) := by
  unfold StrOK
  infer_instance

/-- The rows for which the Vocabulary adapter can round-trip exactly:
no field holds a line terminator (the splitter would cut the row open),
the id is non-empty (a falsy id is re-synthesised on parse), and `addedAt`
is nonzero (a falsy number falls back to the current time on parse). -/
def JapaneseWord.Good (it : JapaneseWord) : Prop :=
  StrOK it.id ∧ StrOK it.word ∧ StrOK it.reading ∧ StrOK it.meaning ∧
  StrOK it.meaningJP ∧ StrOK it.exampleSentence ∧ StrOK it.exampleTranslation ∧
  it.id ≠ "" ∧ it.addedAt ≠ 0

instance (it : JapaneseWord) : Decidable it.Good := by
  unfold JapaneseWord.Good
  infer_instance

/-- The stringified cells of one Vocabulary record, in the generator's
column order (`addedAt` stringified the way `escapeCSV` stringifies
numbers). -/
def japaneseRaw (it : JapaneseWord) : List String :=
  [it.id, it.word, it.reading, it.meaning, it.meaningJP, it.exampleSentence,
   it.exampleTranslation, intToString it.addedAt]

/-- One generated Vocabulary data row. -/
def japaneseRow (it : JapaneseWord) : String :=
  joinStr "," ((japaneseRaw it).map escapeCSVStr)

-- ## The remaining generators and their cell lists

/-- `MusicItem` from `src/types.ts`.  `url` is typed `string` there, but the
parser installs `cols[3]`, which is `undefined` when a 3-column row is
accepted, so the embedding uses `Option String`. -/
structure MusicItem where
  id : String
  artist : String
  song : String
  url : Option String
  addedAt : Int
  deriving DecidableEq, Repr

/-- The row constructor in the loop body of `parseMusicCSV`. -/
def mkMusicItem (now i : Nat) (cols : List String) : MusicItem :=
  { id := jsStrOr (colD cols 0) (synthId now i)
    artist := colD cols 1
    song := colD cols 2
    url := cols.get? 3
    addedAt := jsNumOr (jsNumberOpt (cols.get? 4)) now }

/-- `parseMusicCSV` from the source (minimum 3 columns). -/
def parseMusicCSV (now : Nat) (csvText : String) : List MusicItem :=
  csvRows 3 (mkMusicItem now) 1 (dataLines csvText)

/-- An optional string field as the `escapeCSV` argument (`undefined` when
absent). -/
def optStrVal : Option String → JsVal
  | none => .vundef
  | some s => .vstr s

/-- An optional number field as the `escapeCSV` argument. -/
def optNumVal : Option JSNum → JsVal
  | none => .vundef
  | some v => .vnum v

/-- An optional integral number field as the `escapeCSV` argument. -/
def optIntVal : Option Int → JsVal
  | none => .vundef
  | some n => .vnum (.num n)

/-- The string `escapeCSV` stringifies an optional string field to. -/
def rawOfOptStr (o : Option String) : String := o.getD ""

/-- The string `escapeCSV` stringifies an optional number field to. -/
def rawOfOptNum : Option JSNum → String
  | none => ""
  | some v => jsNumToString v

/-- The string `escapeCSV` stringifies an optional integral field to. -/
def rawOfOptInt : Option Int → String
  | none => ""
  | some n => intToString n

/-- The cells of one generated Travel row, in the source's column order. -/
def travelCells (item : TravelSpot) : List JsVal :=
  [.vstr item.id, .vstr item.name, optStrVal item.address, .vstr item.status.str,
   optStrVal item.googleMapsUri, optNumVal item.rating, optStrVal item.userNotes,
   .vnum (.num item.addedAt)]

/-- `generateTravelCSV` from the source. -/
def generateTravelCSV (items : List TravelSpot) : String :=
  let headers := joinStr ","
    ["ID", "Name", "Address", "Status", "GoogleMapsUri", "Rating", "UserNotes", "AddedAt"]
  let rows := items.map (fun item => joinStr "," ((travelCells item).map escapeCSV))
  "\uFEFF" ++ joinStr "\n" (headers :: rows)

/-- The cells of one generated Music row, in the source's column order. -/
def musicCells (item : MusicItem) : List JsVal :=
  [.vstr item.id, .vstr item.artist, .vstr item.song, optStrVal item.url,
   .vnum (.num item.addedAt)]

/-- `generateMusicCSV` from the source. -/
def generateMusicCSV (items : List MusicItem) : String :=
  let headers := joinStr "," ["ID", "Artist", "Song", "URL", "AddedAt"]
  let rows := items.map (fun item => joinStr "," ((musicCells item).map escapeCSV))
  "\uFEFF" ++ joinStr "\n" (headers :: rows)

/-- The cells of one generated Entertainment row, in the source's column
order. -/
def mediaCells (item : MediaItem) : List JsVal :=
  [.vstr item.id, .vstr item.type, .vstr item.title, .vstr item.status,
   optStrVal item.link, optIntVal item.rating, optStrVal item.notes,
   .vnum (.num item.addedAt)]

/-- `generateMediaCSV` from the source. -/
def generateMediaCSV (items : List MediaItem) : String :=
  let headers := joinStr ","
    ["ID", "Type", "Title", "Status", "Link", "Rating", "Notes", "AddedAt"]
  let rows := items.map (fun item => joinStr "," ((mediaCells item).map escapeCSV))
  "\uFEFF" ++ joinStr "\n" (headers :: rows)

/-- The cells of one generated Diary row, in the source's column order
(`images` joined with `;;;`). -/
def diaryCells (item : DiaryEntry) : List JsVal :=
  [.vstr item.id, .vstr item.date, .vstr item.content, optStrVal item.mood,
   .vstr (joinStr ";;;" item.images), .vnum (.num item.addedAt)]

/-- `generateDiaryCSV` from the source. -/
def generateDiaryCSV (items : List DiaryEntry) : String :=
  let headers := joinStr "," ["ID", "Date", "Content", "Mood", "Images(Base64;)", "AddedAt"]
  let rows := items.map (fun item => joinStr "," ((diaryCells item).map escapeCSV))
  "\uFEFF" ++ joinStr "\n" (headers :: rows)

-- ## Pre-escape cell strings and round-trip conditions per adapter

/-- The stringified cells of one Travel record. -/
def travelRaw (it : TravelSpot) : List String :=
  [it.id, it.name, rawOfOptStr it.address, it.status.str,
   rawOfOptStr it.googleMapsUri, rawOfOptNum it.rating, rawOfOptStr it.userNotes,
   intToString it.addedAt]

/-- One generated Travel data row. -/
def travelRow (it : TravelSpot) : String :=
  joinStr "," ((travelRaw it).map escapeCSVStr)

/-- The stringified cells of one Music record. -/
def musicRaw (it : MusicItem) : List String :=
  [it.id, it.artist, it.song, rawOfOptStr it.url, intToString it.addedAt]

/-- One generated Music data row. -/
def musicRow (it : MusicItem) : String :=
  joinStr "," ((musicRaw it).map escapeCSVStr)

/-- The stringified cells of one Entertainment record. -/
def mediaRaw (it : MediaItem) : List String :=
  [it.id, it.type, it.title, it.status, rawOfOptStr it.link,
   rawOfOptInt it.rating, rawOfOptStr it.notes, intToString it.addedAt]

/-- One generated Entertainment data row. -/
def mediaRow (it : MediaItem) : String :=
  joinStr "," ((mediaRaw it).map escapeCSVStr)

/-- The stringified cells of one Experience record. -/
def experienceRaw (it : ExperienceItem) : List String :=
  [it.id, it.title, it.company, it.period, it.description, joinStr ";" it.tags]

/-- One generated Experience data row. -/
def experienceRow (it : ExperienceItem) : String :=
  joinStr "," ((experienceRaw it).map escapeCSVStr)

/-- The stringified cells of one Diary record. -/
def diaryRaw (it : DiaryEntry) : List String :=
  [it.id, it.date, it.content, rawOfOptStr it.mood, joinStr ";;;" it.images,
   intToString it.addedAt]

/-- One generated Diary data row. -/
def diaryRow (it : DiaryEntry) : String :=
  joinStr "," ((diaryRaw it).map escapeCSVStr)

/-- An optional string field that is present and line-terminator-free.  An
absent optional serialises to an empty cell, which parses back as the empty
string (not `undefined`), so presence is required for an exact field
round-trip. -/
def OptStrOK : Option String → Prop
  | none => False
  | some s => StrOK s

instance (o : Option String) : Decidable (OptStrOK o) := by
  cases o <;> (unfold OptStrOK; infer_instance)

/-- A tag that survives the `;`-join/split-and-trim cycle: non-empty, free
of the sub-delimiter, whitespace-trim-invariant, and line-terminator
free. -/
def TagOK (t : String) : Prop :=
  t ≠ "" ∧ ';' ∉ t.data ∧ jsTrimChars t.data = t.data ∧ StrOK t

instance (t : String) : Decidable (TagOK t) := by
  unfold TagOK
  infer_instance

/-- An image blob that survives the `;;;`-join/split cycle: non-empty, free
of semicolons (base64 content is), and line-terminator free. -/
def ImageOK (im : String) : Prop := im ≠ "" ∧ ';' ∉ im.data ∧ StrOK im

instance (im : String) : Decidable (ImageOK im) := by
  unfold ImageOK
  infer_instance

/-- The Travel records that round-trip exactly: line-terminator-free
fields, non-empty id, present optional strings, nonzero `addedAt` (the
enum `status` and the `rating` always round-trip). -/
def TravelSpot.Good (it : TravelSpot) : Prop :=
  StrOK it.id ∧ it.id ≠ "" ∧ StrOK it.name ∧ OptStrOK it.address ∧
  OptStrOK it.googleMapsUri ∧ OptStrOK it.userNotes ∧ it.addedAt ≠ 0

instance (it : TravelSpot) : Decidable it.Good := by
  unfold TravelSpot.Good
  infer_instance

/-- The Music records that round-trip exactly. -/
def MusicItem.Good (it : MusicItem) : Prop :=
  StrOK it.id ∧ it.id ≠ "" ∧ StrOK it.artist ∧ StrOK it.song ∧
  OptStrOK it.url ∧ it.addedAt ≠ 0

instance (it : MusicItem) : Decidable it.Good := by
  unfold MusicItem.Good
  infer_instance

/-- The Entertainment records that round-trip exactly: additionally the
`status` must be one of its three literals (anything else is normalised to
`Watching` on parse) and the rating must not be the falsy `0` (rewritten to
`undefined` by `Number(x) || undefined`). -/
def MediaItem.Good (it : MediaItem) : Prop :=
  StrOK it.id ∧ it.id ≠ "" ∧ StrOK it.type ∧ StrOK it.title ∧
  (it.status = "Watching" ∨ it.status = "Completed" ∨ it.status = "Plan to Watch") ∧
  OptStrOK it.link ∧ it.rating ≠ some 0 ∧ OptStrOK it.notes ∧ it.addedAt ≠ 0

instance (it : MediaItem) : Decidable it.Good := by
  unfold MediaItem.Good
  infer_instance

/-- The Experience records that round-trip exactly: every tag must survive
the `;`-join/split-and-trim cycle. -/
def ExperienceItem.Good (it : ExperienceItem) : Prop :=
  StrOK it.id ∧ it.id ≠ "" ∧ StrOK it.title ∧ StrOK it.company ∧
  StrOK it.period ∧ StrOK it.description ∧ ∀ t ∈ it.tags, TagOK t

instance (it : ExperienceItem) : Decidable it.Good := by
  unfold ExperienceItem.Good
  infer_instance

/-- The Diary records that round-trip exactly: present mood, images that
survive the `;;;` cycle, nonzero `addedAt`. -/
def DiaryEntry.Good (it : DiaryEntry) : Prop :=
  StrOK it.id ∧ it.id ≠ "" ∧ StrOK it.date ∧ StrOK it.content ∧
  OptStrOK it.mood ∧ (∀ im ∈ it.images, ImageOK im) ∧ it.addedAt ≠ 0

instance (it : DiaryEntry) : Decidable it.Good := by
  unfold DiaryEntry.Good
  infer_instance

-- ## Step lemmas for the line scanner

theorem parseLineAux_nil (q : Bool) (cur : List Char) (res : List (List Char)) :
    parseLineAux [] q cur res = res ++ [cur] := rfl

theorem parseLineAux_qq (rest : List Char) (cur : List Char) (res : List (List Char)) :
    parseLineAux ('"' :: '"' :: rest) true cur res = parseLineAux rest true (cur ++ ['"']) res := rfl

theorem parseLineAux_q_false (rest : List Char) (cur : List Char) (res : List (List Char)) :
    parseLineAux ('"' :: rest) false cur res = parseLineAux rest true cur res := by
  match rest with
  | [] => rfl
  | c :: t =>
    by_cases h : c = '"'
    · subst h; rfl
    · simp only [parseLineAux, h, if_false]
      rfl

theorem parseLineAux_q_true (rest : List Char) (cur : List Char) (res : List (List Char))
    (h : rest.head? ≠ some '"') :
    parseLineAux ('"' :: rest) true cur res = parseLineAux rest false cur res := by
  match rest with
  | [] => rfl
  | c :: t =>
    have hc : c ≠ '"' := by
      intro hc; exact h (by simp [hc])
    rw [parseLineAux.eq_def]
    split
    all_goals try simp_all
    next c2 r2 hne heq => exact absurd heq.1.symm hne

theorem parseLineAux_comma_false (rest : List Char) (cur : List Char) (res : List (List Char)) :
    parseLineAux (',' :: rest) false cur res = parseLineAux rest false [] (res ++ [cur]) := rfl

theorem parseLineAux_other (c : Char) (rest : List Char) (q : Bool) (cur : List Char)
    (res : List (List Char)) (hq : c ≠ '"') (hc : c = ',' → q = true) :
    parseLineAux (c :: rest) q cur res = parseLineAux rest q (cur ++ [c]) res := by
  rw [parseLineAux.eq_def]
  split
  all_goals try simp_all

-- ## Consuming one escaped field

theorem parseLineAux_consume_plain (s : List Char) :
    ∀ (rest cur : List Char) (res : List (List Char)),
    (∀ c ∈ s, c ≠ '"' ∧ c ≠ ',') →
    parseLineAux (s ++ rest) false cur res = parseLineAux rest false (cur ++ s) res := by
  induction s with
  | nil => intro rest cur res _; simp
  | cons c t ih =>
    intro rest cur res h
    have hc := h c (by simp)
    rw [List.cons_append,
      parseLineAux_other c (t ++ rest) false cur res hc.1 (fun hcc => absurd hcc hc.2),
      ih rest (cur ++ [c]) res (fun c' hc' => h c' (by simp [hc']))]
    simp

theorem parseLineAux_consume_quoted (s : List Char) :
    ∀ (rest cur : List Char) (res : List (List Char)), rest.head? ≠ some '"' →
    parseLineAux (dupQ s ++ '"' :: rest) true cur res = parseLineAux rest false (cur ++ s) res := by
  induction s with
  | nil =>
    intro rest cur res h
    simpa [dupQ] using parseLineAux_q_true rest cur res h
  | cons c t ih =>
    intro rest cur res h
    by_cases hc : c = '"'
    · subst hc
      rw [show dupQ ('"' :: t) = '"' :: '"' :: dupQ t from by simp [dupQ],
        List.cons_append, List.cons_append, parseLineAux_qq,
        ih rest (cur ++ ['"']) res h]
      simp
    · rw [show dupQ (c :: t) = c :: dupQ t from by simp [dupQ, hc],
        List.cons_append,
        parseLineAux_other c (dupQ t ++ '"' :: rest) true cur res hc (fun _ => rfl),
        ih rest (cur ++ [c]) res h]
      simp

theorem not_hasSpecial_chars {s : List Char} (hs : hasSpecial s = false) :
    ∀ c ∈ s, c ≠ '"' ∧ c ≠ ',' := by
  intro c hcmem
  simp only [hasSpecial, Bool.or_eq_false_iff, List.contains, List.elem_eq_mem,
    decide_eq_false_iff_not] at hs
  constructor
  · intro hcq; subst hcq; exact hs.2 hcmem
  · intro hcq; subst hcq; exact hs.1.1 hcmem

theorem parseLineAux_consume_esc (s rest cur : List Char) (res : List (List Char))
    (h : rest.head? ≠ some '"') :
    parseLineAux (escChars s ++ rest) false cur res = parseLineAux rest false (cur ++ s) res := by
  by_cases hs : hasSpecial s
  · rw [show escChars s ++ rest = '"' :: (dupQ s ++ '"' :: rest) from by
      simp [escChars, hs]]
    rw [parseLineAux_q_false, parseLineAux_consume_quoted s rest cur res h]
  · rw [show escChars s = s from by simp [escChars, hs]]
    exact parseLineAux_consume_plain s rest cur res
      (not_hasSpecial_chars (by simpa using hs))

-- ## One whole joined row

theorem parseLineAux_join (tl : List (List Char)) :
    ∀ (s cur : List Char) (res : List (List Char)),
    parseLineAux (joinWith [','] ((s :: tl).map escChars)) false cur res =
      res ++ (cur ++ s) :: tl := by
  induction tl with
  | nil =>
    intro s cur res
    have h0 : joinWith [','] ([s].map escChars) = escChars s ++ [] := by
      simp [joinWith]
    rw [h0, parseLineAux_consume_esc s [] cur res (by simp), parseLineAux_nil]
  | cons t ts ih =>
    intro s cur res
    have h0 : joinWith [','] ((s :: t :: ts).map escChars) =
        escChars s ++ ',' :: joinWith [','] ((t :: ts).map escChars) := by
      simp [joinWith]
    rw [h0, parseLineAux_consume_esc s _ cur res (by simp),
      parseLineAux_comma_false, ih t [] (res ++ [cur ++ s])]
    simp

/-- Parsing a line built by escaping and comma-joining a non-empty list of
fields recovers exactly those fields. -/
theorem parseLineList_join (s : List Char) (tl : List (List Char)) :
    parseLineList (joinWith [','] ((s :: tl).map escChars)) = (s :: tl).map String.mk := by
  rw [parseLineList, parseLineAux_join tl s [] []]
  simp

-- ## Decimal digits: printing and re-parsing

theorem natToDigitsF_stable (n : Nat) :
    ∀ f g, n < f → n < g → natToDigitsF f n = natToDigitsF g n := by
  induction n using Nat.strong_induction_on with
  | _ n ih =>
    intro f g hf hg
    match f, g with
    | f' + 1, g' + 1 =>
      by_cases h10 : n < 10
      · simp [natToDigitsF, h10]
      · have hd : n / 10 < n := Nat.div_lt_self (by omega) (by omega)
        simp only [natToDigitsF, h10, if_false]
        rw [ih (n / 10) hd f' g' (by omega) (by omega)]

theorem natToDigits_unfold (n : Nat) :
    natToDigits n = if n < 10 then [digitChar n]
      else natToDigits (n / 10) ++ [digitChar (n % 10)] := by
  by_cases h10 : n < 10
  · simp [natToDigits, natToDigitsF, h10]
  · have hd : n / 10 < n := Nat.div_lt_self (by omega) (by omega)
    have h1 : natToDigitsF (n + 1) n = natToDigitsF n (n / 10) ++ [digitChar (n % 10)] := by
      simp [natToDigitsF, h10]
    rw [natToDigits, h1, natToDigitsF_stable (n / 10) n (n / 10 + 1) hd (by omega), if_neg h10]
    rfl

theorem digitChar_spec (d : Nat) (h : d < 10) :
    digitVal (digitChar d) = some d ∧ digitChar d ≠ '-' ∧ digitChar d ≠ '+' ∧
    isJsWs (digitChar d) = false ∧ digitChar d ≠ '\n' ∧ digitChar d ≠ '\r' ∧
    digitChar d ≠ '"' ∧ digitChar d ≠ ',' := by
  interval_cases d <;> exact ⟨by decide, by decide, by decide, by decide,
    by decide, by decide, by decide, by decide⟩

theorem natToDigits_forall (n : Nat) : ∀ c ∈ natToDigits n, ∃ d, d < 10 ∧ c = digitChar d := by
  induction n using Nat.strong_induction_on with
  | _ n ih =>
    intro c hc
    rw [natToDigits_unfold] at hc
    by_cases h10 : n < 10
    · simp [h10] at hc
      exact ⟨n, h10, hc⟩
    · have hd : n / 10 < n := Nat.div_lt_self (by omega) (by omega)
      simp only [h10, if_false, List.mem_append, List.mem_singleton] at hc
      rcases hc with hc | hc
      · exact ih (n / 10) hd c hc
      · exact ⟨n % 10, by omega, hc⟩

theorem natToDigits_ne_nil (n : Nat) : natToDigits n ≠ [] := by
  rw [natToDigits_unfold]
  by_cases h10 : n < 10 <;> simp [h10]

theorem parseDigitsAux_append (a b : List Char) (acc : Nat) :
    parseDigitsAux (a ++ b) acc =
      match parseDigitsAux a acc with
      | some m => parseDigitsAux b m
      | none => none := by
  induction a generalizing acc with
  | nil => simp [parseDigitsAux]
  | cons c t ih =>
    simp only [List.cons_append, parseDigitsAux]
    match digitVal c with
    | some d => simp [ih]
    | none => simp

theorem parseDigitsAux_natToDigits (n : Nat) : parseDigitsAux (natToDigits n) 0 = some n := by
  induction n using Nat.strong_induction_on with
  | _ n ih =>
    rw [natToDigits_unfold]
    by_cases h10 : n < 10
    · simp [h10, parseDigitsAux, (digitChar_spec n h10).1]
    · have hd : n / 10 < n := Nat.div_lt_self (by omega) (by omega)
      simp only [h10, if_false]
      rw [parseDigitsAux_append, ih (n / 10) hd]
      simp [parseDigitsAux, (digitChar_spec (n % 10) (by omega)).1]
      omega

theorem parseDigits_natToDigits (n : Nat) : parseDigits (natToDigits n) = some n := by
  obtain ⟨c, t, h⟩ : ∃ c t, natToDigits n = c :: t := by
    cases hnd : natToDigits n with
    | nil => exact absurd hnd (natToDigits_ne_nil n)
    | cons c t => exact ⟨c, t, rfl⟩
  rw [h]
  have h2 : parseDigits (c :: t) = parseDigitsAux (c :: t) 0 := rfl
  rw [h2, ← h]
  exact parseDigitsAux_natToDigits n

theorem natToDigits_inj {m n : Nat} (h : natToDigits m = natToDigits n) : m = n := by
  have := parseDigits_natToDigits m
  rw [h, parseDigits_natToDigits n] at this
  exact (Option.some_inj.mp this).symm

theorem jsTrimChars_of_no_ws {l : List Char} (h : ∀ c ∈ l, isJsWs c = false) :
    jsTrimChars l = l := by
  have h1 : l.dropWhile isJsWs = l := by
    cases l with
    | nil => rfl
    | cons c t => rw [List.dropWhile_cons_of_neg (by simp [h c (by simp)])]
  rw [jsTrimChars, h1]
  have h2 : l.reverse.dropWhile isJsWs = l.reverse := by
    cases hr : l.reverse with
    | nil => rfl
    | cons c t =>
      rw [List.dropWhile_cons_of_neg]
      simp only [Bool.not_eq_true]
      exact h c (by rw [← List.mem_reverse, hr]; simp)
  rw [h2, List.reverse_reverse]

theorem natToString_data (n : Nat) : (natToString n).data = natToDigits n := rfl

theorem jsNumber_natToString (n : Nat) : jsNumber (natToString n) = .num n := by
  have hall := natToDigits_forall n
  have hws : ∀ c ∈ natToDigits n, isJsWs c = false := by
    intro c hc
    obtain ⟨d, hd, rfl⟩ := hall c hc
    exact (digitChar_spec d hd).2.2.2.1
  have htrim : jsTrimChars (natToString n).data = natToDigits n := by
    rw [natToString_data]
    exact jsTrimChars_of_no_ws hws
  obtain ⟨c, t, h⟩ : ∃ c t, natToDigits n = c :: t := by
    cases hnd : natToDigits n with
    | nil => exact absurd hnd (natToDigits_ne_nil n)
    | cons c t => exact ⟨c, t, rfl⟩
  obtain ⟨d, hd, hcd⟩ := hall c (by rw [h]; simp)
  subst hcd
  have hp : parseDigits (digitChar d :: t) = some n := by
    rw [← h]
    exact parseDigits_natToDigits n
  have hminus : digitChar d ≠ '-' := (digitChar_spec d hd).2.1
  have hplus : digitChar d ≠ '+' := (digitChar_spec d hd).2.2.1
  rw [jsNumber, htrim, h]
  simp [hminus, hplus, hp]

theorem intToString_data_nonneg {n : Int} (h : 0 ≤ n) :
    (intToString n).data = natToDigits n.toNat := by
  rw [intToString, if_neg (by omega)]
  rfl

theorem intToString_data_neg {n : Int} (h : n < 0) :
    (intToString n).data = '-' :: natToDigits n.natAbs := by
  rw [intToString, if_pos h]

/-- `Number(String(n)) = n` for every integral JavaScript number. -/
theorem jsNumber_intToString (n : Int) : jsNumber (intToString n) = .num n := by
  by_cases h : 0 ≤ n
  · have : intToString n = natToString n.toNat := by rw [intToString, if_neg (by omega)]
    rw [this, jsNumber_natToString]
    congr 1
    omega
  · have hdata : (intToString n).data = '-' :: natToDigits n.natAbs :=
      intToString_data_neg (by omega)
    have hall := natToDigits_forall n.natAbs
    have hws : ∀ c ∈ ('-' :: natToDigits n.natAbs), isJsWs c = false := by
      intro c hc
      rcases List.mem_cons.mp hc with rfl | hc
      · decide
      · obtain ⟨d, hd, rfl⟩ := hall c hc
        exact (digitChar_spec d hd).2.2.2.1
    have htrim : jsTrimChars (intToString n).data = '-' :: natToDigits n.natAbs := by
      rw [hdata]
      exact jsTrimChars_of_no_ws hws
    rw [jsNumber, htrim]
    have habs : ((n.natAbs : Int)) = -n := Int.ofNat_natAbs_of_nonpos (by omega)
    simp [parseDigits_natToDigits n.natAbs, habs]

theorem natToString_inj {m n : Nat} (h : natToString m = natToString n) : m = n :=
  natToDigits_inj (congrArg String.data h)

theorem string_append_data (a b : String) : (a ++ b).data = a.data ++ b.data := rfl

/-- Two ids synthesised at the same time instant from distinct row indices
are distinct. -/
theorem synthId_inj (now : Nat) {i j : Nat} (h : synthId now i = synthId now j) : i = j := by
  have hdata : natToDigits now ++ natToDigits i = natToDigits now ++ natToDigits j := by
    have := congrArg String.data h
    rwa [synthId, synthId, string_append_data, string_append_data] at this
  exact natToDigits_inj (List.append_cancel_left hdata)

-- ## Line splitting

theorem splitAux_lf (rest cur : List Char) :
    splitAux ('\n' :: rest) cur = cur :: splitAux rest [] := rfl

theorem splitAux_other (c : Char) (rest cur : List Char) (h1 : c ≠ '\n') (h2 : c ≠ '\r') :
    splitAux (c :: rest) cur = splitAux rest (cur ++ [c]) := by
  rw [splitAux.eq_def]
  split
  all_goals try simp_all

theorem splitAux_no_nl (l : List Char) :
    ∀ cur, (∀ c ∈ l, c ≠ '\n' ∧ c ≠ '\r') → splitAux l cur = [cur ++ l] := by
  induction l with
  | nil => intro cur _; simp [splitAux]
  | cons c t ih =>
    intro cur h
    have hc := h c (by simp)
    rw [splitAux_other c t cur hc.1 hc.2, ih (cur ++ [c]) (fun c' hc' => h c' (by simp [hc']))]
    simp

theorem splitAux_append_lf (l : List Char) :
    ∀ (rest cur : List Char), (∀ c ∈ l, c ≠ '\n' ∧ c ≠ '\r') →
    splitAux (l ++ '\n' :: rest) cur = (cur ++ l) :: splitAux rest [] := by
  induction l with
  | nil => intro rest cur _; simp [splitAux_lf]
  | cons c t ih =>
    intro rest cur h
    have hc := h c (by simp)
    rw [List.cons_append, splitAux_other c _ cur hc.1 hc.2,
      ih rest (cur ++ [c]) (fun c' hc' => h c' (by simp [hc']))]
    simp

/-- Splitting a newline-join of newline-free lines recovers the lines. -/
theorem splitAux_joinWith_lf (ls : List (List Char)) (l : List Char) :
    (∀ x ∈ l :: ls, ∀ c ∈ x, c ≠ '\n' ∧ c ≠ '\r') →
    splitAux (joinWith ['\n'] (l :: ls)) [] = l :: ls := by
  induction ls generalizing l with
  | nil =>
    intro h
    rw [show joinWith ['\n'] [l] = l from rfl, splitAux_no_nl l [] (h l (by simp))]
    rfl
  | cons x xs ih =>
    intro h
    have hjoin : joinWith ['\n'] (l :: x :: xs) = l ++ '\n' :: joinWith ['\n'] (x :: xs) := by
      simp [joinWith]
    rw [hjoin, splitAux_append_lf l _ [] (h l (by simp))]
    have := ih x (fun y hy => h y (by simp at hy ⊢; tauto))
    simp only [List.nil_append]
    rw [this]

-- ## Well-formed rows survive the text pipeline

theorem string_mk_data (s : String) : String.mk s.data = s := by
  cases s
  rfl

theorem joinStr_data (sep : String) :
    ∀ l : List String, (joinStr sep l).data = joinWith sep.data (l.map String.data)
  | [] => rfl
  | [x] => rfl
  | x :: y :: t => by
    rw [show joinStr sep (x :: y :: t) = x ++ sep ++ joinStr sep (y :: t) from rfl,
      string_append_data, string_append_data, joinStr_data sep (y :: t)]
    rfl

theorem mem_dupQ {c : Char} : ∀ {l : List Char}, c ∈ dupQ l → c ∈ l := by
  intro l
  induction l with
  | nil => simp [dupQ]
  | cons c0 t ih =>
    intro h
    by_cases hc0 : c0 = '"'
    · subst hc0
      rw [show dupQ ('"' :: t) = '"' :: '"' :: dupQ t from by simp [dupQ]] at h
      rcases List.mem_cons.mp h with rfl | h
      · simp
      · rcases List.mem_cons.mp h with rfl | h
        · simp
        · simp [ih h]
    · rw [show dupQ (c0 :: t) = c0 :: dupQ t from by simp [dupQ, hc0]] at h
      rcases List.mem_cons.mp h with rfl | h
      · simp
      · simp [ih h]

theorem mem_escChars {c : Char} {l : List Char} (h : c ∈ escChars l) : c ∈ l ∨ c = '"' := by
  by_cases hs : hasSpecial l
  · rw [escChars, if_pos hs] at h
    rcases List.mem_cons.mp h with rfl | h
    · right; rfl
    · rcases List.mem_append.mp h with h | h
      · left; exact mem_dupQ h
      · right; simpa using h
  · rw [escChars, if_neg hs] at h
    left; exact h

theorem mem_joinWith_comma {c : Char} :
    ∀ {ls : List (List Char)}, c ∈ joinWith [','] ls → (∃ x ∈ ls, c ∈ x) ∨ c = ',' := by
  intro ls
  induction ls with
  | nil => simp [joinWith]
  | cons x xs ih =>
    intro h
    match xs with
    | [] =>
      left; exact ⟨x, by simp, by simpa [joinWith] using h⟩
    | y :: t =>
      rw [show joinWith [','] (x :: y :: t) = x ++ [','] ++ joinWith [','] (y :: t) from rfl] at h
      rcases List.mem_append.mp h with h | h
      · rcases List.mem_append.mp h with h | h
        · left; exact ⟨x, by simp, h⟩
        · right; simpa using h
      · rcases ih h with ⟨z, hz, hcz⟩ | h
        · left; exact ⟨z, by simp [hz], hcz⟩
        · right; exact h

theorem row_data_eq (cells : List String) :
    (joinStr "," (cells.map escapeCSVStr)).data =
      joinWith [','] ((cells.map String.data).map escChars) := by
  rw [joinStr_data]
  congr 1
  rw [List.map_map, List.map_map]
  rfl

theorem map_mk_comp_data : ∀ tl : List String, tl.map (fun s => String.mk s.data) = tl := by
  intro tl
  induction tl with
  | nil => rfl
  | cons x t ih => simp [string_mk_data, ih]

theorem parseLineList_cells (x : String) (tl : List String) :
    parseLineList ((joinStr "," ((x :: tl).map escapeCSVStr)).data) = x :: tl := by
  rw [row_data_eq]
  rw [show ((x :: tl).map String.data).map escChars =
    (x.data :: tl.map String.data).map escChars from rfl]
  rw [parseLineList_join]
  rw [show List.map String.mk (x.data :: List.map String.data tl) =
    String.mk x.data :: (tl.map String.data).map String.mk from by simp]
  rw [string_mk_data, List.map_map]
  congr 1
  exact map_mk_comp_data tl

theorem noNLCR_row (cells : List String) (hok : ∀ s ∈ cells, StrOK s) :
    ∀ c ∈ (joinStr "," (cells.map escapeCSVStr)).data, c ≠ '\n' ∧ c ≠ '\r' := by
  rw [row_data_eq]
  intro c hc
  rcases mem_joinWith_comma hc with ⟨x, hx, hcx⟩ | rfl
  · obtain ⟨e, he, rfl⟩ := List.mem_map.mp hx
    obtain ⟨s, hs, rfl⟩ := List.mem_map.mp he
    rcases mem_escChars hcx with h | rfl
    · exact hok s hs c h
    · exact ⟨by decide, by decide⟩
  · exact ⟨by decide, by decide⟩

theorem keepLine_row (x y : String) (tl : List String) :
    keepLine ((joinStr "," ((x :: y :: tl).map escapeCSVStr)).data) = true := by
  rw [row_data_eq]
  have hmem : ',' ∈ joinWith [','] (((x :: y :: tl).map String.data).map escChars) := by
    rw [show joinWith [','] (((x :: y :: tl).map String.data).map escChars) =
      escChars x.data ++ [','] ++
        joinWith [','] (((y :: tl).map String.data).map escChars) from rfl]
    simp
  rw [keepLine, List.any_eq_true]
  exact ⟨',', hmem, by decide⟩

theorem hn_data : ("H\n" : String).data = ['H', '\n'] := by decide

theorem dataLines_header_row (x y : String) (tl : List String)
    (hok : ∀ s ∈ x :: y :: tl, StrOK s) :
    dataLines ("H\n" ++ joinStr "," ((x :: y :: tl).map escapeCSVStr)) =
      [(joinStr "," ((x :: y :: tl).map escapeCSVStr)).data] := by
  have hrow := noNLCR_row (x :: y :: tl) hok
  rw [dataLines, csvLines, string_append_data, hn_data,
    show (['H', '\n'] : List Char) ++
      (joinStr "," ((x :: y :: tl).map escapeCSVStr)).data =
      ['H'] ++ '\n' :: (joinStr "," ((x :: y :: tl).map escapeCSVStr)).data from by simp,
    splitAux_append_lf ['H'] _ [] (by intro c hc; simp at hc; subst hc; exact ⟨by decide, by decide⟩),
    splitAux_no_nl _ [] hrow]
  simp only [List.nil_append]
  rw [List.filter_cons_of_pos (by decide),
    List.filter_cons_of_pos (keepLine_row x y tl)]
  simp

-- ## Generic facts about the row loop

theorem dupQ_length_ge (l : List Char) : l.length ≤ (dupQ l).length := by
  induction l with
  | nil => simp [dupQ]
  | cons c t ih =>
    by_cases hc : c = '"'
    · subst hc
      rw [show dupQ ('"' :: t) = '"' :: '"' :: dupQ t from by simp [dupQ]]
      simp
      omega
    · rw [show dupQ (c :: t) = c :: dupQ t from by simp [dupQ, hc]]
      simpa using ih

theorem csvRows_length {α : Type} (minCols : Nat) (mk : Nat → List String → α) :
    ∀ (i : Nat) (ls : List (List Char)),
    (csvRows minCols mk i ls).length =
      ls.countP (fun l => !((parseLineList l).length < minCols)) := by
  intro i ls
  induction ls generalizing i with
  | nil => simp [csvRows]
  | cons l t ih =>
    rw [csvRows]
    by_cases h : (parseLineList l).length < minCols
    · simp [h, List.countP_cons, ih]
    · simp [h, List.countP_cons, ih (i + 1)]

theorem csvRows_mem {α : Type} (minCols : Nat) (mk : Nat → List String → α) :
    ∀ (i : Nat) (ls : List (List Char)) (it : α), it ∈ csvRows minCols mk i ls →
      ∃ j cols, it = mk j cols := by
  intro i ls
  induction ls generalizing i with
  | nil => simp [csvRows]
  | cons l t ih =>
    intro it hit
    rw [csvRows] at hit
    by_cases h : (parseLineList l).length < minCols
    · rw [if_pos h] at hit
      exact ih (i + 1) it hit
    · rw [if_neg h] at hit
      rcases List.mem_cons.mp hit with rfl | hit
      · exact ⟨i, parseLineList l, rfl⟩
      · exact ih (i + 1) it hit

theorem mediaStatusOf_cases (s : String) :
    mediaStatusOf s = "Watching" ∨ mediaStatusOf s = "Completed" ∨
      mediaStatusOf s = "Plan to Watch" := by
  rw [mediaStatusOf]
  split
  · right; left; rfl
  · split
    · right; right; rfl
    · left; rfl

-- ## Claim C2

/-- Claim C2 (confirmed): for every string `s`, parsing the escaped form of
`s` as one CSV line yields exactly `[s]`; the escaper rewrites the string
(wrapping in quotes and doubling internal quotes) exactly when it contains
a comma, double quote, or newline; and the concrete field `a,b"c\nd`
escapes to `"a,b""c\nd"` and parses back to the original literal. -/
theorem C2_escape_parse_inverse :
    (∀ s : String, parseCSVLine (escapeCSVStr s) = [s]) ∧
    (∀ s : String, escapeCSVStr s = s ↔ hasSpecial s.data = false) ∧
    escapeCSVStr "a,b\"c\nd" = "\"a,b\"\"c\nd\"" ∧
    parseCSVLine "\"a,b\"\"c\nd\"" = ["a,b\"c\nd"] := by
  refine ⟨?_, ?_, by decide, by decide⟩
  · intro s
    show parseLineList (escChars s.data) = [s]
    rw [parseLineList]
    have h := parseLineAux_consume_esc s.data [] [] [] (by simp)
    rw [List.append_nil] at h
    rw [h, parseLineAux_nil]
    simp [string_mk_data]
  · intro s
    constructor
    · intro h
      by_contra hs
      have hs' : hasSpecial s.data = true := by simpa using hs
      have hdata := congrArg String.data h
      rw [show (escapeCSVStr s).data = escChars s.data from rfl, escChars, if_pos hs'] at hdata
      have hlen := congrArg List.length hdata
      have hge := dupQ_length_ge s.data
      simp only [List.length_cons, List.length_append, List.length_singleton] at hlen
      omega
    · intro h
      rw [show escapeCSVStr s = String.mk (escChars s.data) from rfl, escChars,
        if_neg (by simp [h]), string_mk_data]

-- ## Claim C3

/-- Claim C3 (confirmed): a data row with fewer parsed columns than the
variant's minimum is silently discarded: the number of records returned is
exactly the number of data lines with enough columns (the parse function is
total, so no malformed row can raise), and a body with one well-formed row
and one two-column row under the five-column Experience schema yields
exactly the well-formed row. -/
theorem C3_malformed_rows_skipped :
    (∀ (now : Nat) (csvText : String),
      (parseExperienceCSV now csvText).length =
        (dataLines csvText).countP (fun l => !((parseLineList l).length < 5))) ∧
    parseExperienceCSV 0 "ID,Title,Company,Period,Description,Tags\n1,t,c,p,d\nx,y" =
      [{ id := "1", title := "t", company := "c", period := "p", description := "d",
         tags := [] }] := by
  constructor
  · intro now csvText
    rw [parseExperienceCSV]
    exact csvRows_length 5 (mkExperienceItem now) 1 (dataLines csvText)
  · decide

-- ## Claim C4

/-- Claim C4 (confirmed): the travel status cell is matched against an
allow-list: the English `Visited` and its Chinese (`去過`) and Japanese
(`行った`) synonyms parse to `VISITED`, and any other cell value (including
`unknown`) falls back to the default `WANT_TO_GO`; the parse function is
total, so no status value can raise. -/
theorem C4_travel_status_allowlist (now : Nat) (c : String) (hok : StrOK c) :
    (parseTravelCSV now
        ("H\n" ++ joinStr "," (["i", "n", "a", c].map escapeCSVStr))).map (·.status) =
      [if c = "Visited" ∨ c = "去過" ∨ c = "行った" then TravelStatus.VISITED
       else TravelStatus.WANT_TO_GO] := by
  have hok' : ∀ s ∈ ["i", "n", "a", c], StrOK s := by
    intro s hs
    simp only [List.mem_cons, List.not_mem_nil, or_false] at hs
    rcases hs with rfl | rfl | rfl | rfl
    · decide
    · decide
    · decide
    · exact hok
  rw [parseTravelCSV, dataLines_header_row "i" "n" ["a", c] hok', csvRows,
    parseLineList_cells "i" ["n", "a", c]]
  rw [if_neg (by simp)]
  simp [mkTravelSpot, travelStatusOf, colD, csvRows]

/-- Witness for C4 at the concrete cell `unknown`. -/
theorem C4_witness :
    StrOK "unknown" ∧
    (parseTravelCSV 0
        ("H\n" ++ joinStr "," (["i", "n", "a", "unknown"].map escapeCSVStr))).map (·.status) =
      [if ("unknown" : String) = "Visited" ∨ ("unknown" : String) = "去過" ∨
          ("unknown" : String) = "行った" then TravelStatus.VISITED
       else TravelStatus.WANT_TO_GO] :=
  ⟨by decide, C4_travel_status_allowlist 0 "unknown" (by decide)⟩

-- ## Claim C5

/-- Claim C5 (corrected): on parse, `addedAt` is run through the JavaScript
`||` fallback: it equals the numeric value of its cell exactly when that
cell parses to a nonzero number, and defaults to the current time when the
cell is missing, non-numeric, or zero.  The first conjunct feeds an
arbitrary newline-free cell through the full pipeline; the second shows the
missing-cell default. -/
theorem C5_addedAt_fallback (now : Nat) (a : String) (hok : StrOK a) :
    ((parseJapaneseCSV now
        ("H\n" ++ joinStr "," (["x", "w", "r", "m", "j", "e", "t", a].map escapeCSVStr))).map
        (·.addedAt) = [jsNumOr (jsNumber a) now]) ∧
    ((parseJapaneseCSV now "H\nx,w,r,m,j,e,t").map (·.addedAt) = [(now : Int)]) := by
  constructor
  · have hok' : ∀ s ∈ ["x", "w", "r", "m", "j", "e", "t", a], StrOK s := by
      intro s hs
      simp only [List.mem_cons, List.not_mem_nil, or_false] at hs
      rcases hs with rfl | rfl | rfl | rfl | rfl | rfl | rfl | rfl
      · decide
      · decide
      · decide
      · decide
      · decide
      · decide
      · decide
      · exact hok
    rw [parseJapaneseCSV, dataLines_header_row "x" "w" ["r", "m", "j", "e", "t", a] hok',
      csvRows, parseLineList_cells "x" ["w", "r", "m", "j", "e", "t", a]]
    rw [if_neg (by simp)]
    simp [mkJapaneseWord, colD, jsNumberOpt, csvRows]
  · rfl

/-- Witness for C5 at the concrete non-numeric cell `abc`. -/
theorem C5_witness :
    StrOK "abc" ∧
    ((parseJapaneseCSV 9
        ("H\n" ++ joinStr "," (["x", "w", "r", "m", "j", "e", "t", "abc"].map escapeCSVStr))).map
        (·.addedAt) = [jsNumOr (jsNumber "abc") 9]) ∧
    ((parseJapaneseCSV 9 "H\nx,w,r,m,j,e,t").map (·.addedAt) = [(9 : Int)]) :=
  ⟨by decide, (C5_addedAt_fallback 9 "abc" (by decide)).1, (C5_addedAt_fallback 9 "abc" (by decide)).2⟩

/-- Counterexample to C5 as stated: the `AddedAt` cell `0` is present and
numeric, yet the parsed record's `addedAt` is the current time `77`, not
the cell value `0`. -/
theorem C5_counterexample :
    ((parseJapaneseCSV 77 "H\nx,w,r,m,j,e,t,0").map (·.addedAt) = [(77 : Int)]) ∧
    (77 : Int) ≠ 0 := by decide

-- ## Claim C6

/-- Counterexample to C6 as stated: a diary row with an empty mood cell
produces `mood = some ""` (the empty string), not `undefined`. -/
theorem C6_counterexample :
    (parseDiaryCSV 0 "H\nx,2024,hello,,,").map (·.mood) = [some ""] ∧
    (some "" : Option String) ≠ none := by decide

/-- Claim C6 (corrected): for every accepted row, the optional numeric
fields are `undefined` exactly when the JavaScript truthiness test on the
cell fails — for the travel rating that is exactly the empty cell, for the
media rating the empty, zero or non-numeric cell — while the optional
string fields (diary mood, travel userNotes, media link and notes) receive
the cell verbatim, the empty string (not `undefined`) when the cell is
empty, and are `undefined` only when the column is absent from the row.
Each conjunct quantifies over an arbitrary line-terminator-free cell fed
through the full pipeline; the last conjuncts show the absent-column
cases. -/
theorem C6_optional_fields :
    (∀ (now : Nat) (r : String), StrOK r →
      (parseTravelCSV now ("H\n" ++ joinStr ","
          (["x", "n", "a", "s", "u", r, "nt", "5"].map escapeCSVStr))).map (·.rating) =
        [if r = "" then none else some (jsNumber r)]) ∧
    (∀ (now : Nat) (r : String), StrOK r →
      (parseMediaCSV now ("H\n" ++ joinStr ","
          (["x", "Anime", "T", "Watching", "L", r, "N", "5"].map escapeCSVStr))).map
          (·.rating) =
        [match jsNumber r with
         | .num n => if n = 0 then none else some n
         | .nan => none]) ∧
    (∀ (now : Nat) (m : String), StrOK m →
      (parseDiaryCSV now ("H\n" ++ joinStr ","
          (["x", "2024", "hello", m, "", ""].map escapeCSVStr))).map (·.mood) =
        [some m]) ∧
    (∀ (now : Nat) (u : String), StrOK u →
      (parseTravelCSV now ("H\n" ++ joinStr ","
          (["x", "n", "a", "s", "u", "7", u, "5"].map escapeCSVStr))).map (·.userNotes) =
        [some u]) ∧
    (∀ (now : Nat) (l nt : String), StrOK l → StrOK nt →
      (parseMediaCSV now ("H\n" ++ joinStr ","
          (["x", "Anime", "T", "Watching", l, "7", nt, "5"].map escapeCSVStr))).map
          (·.link) = [some l] ∧
      (parseMediaCSV now ("H\n" ++ joinStr ","
          (["x", "Anime", "T", "Watching", l, "7", nt, "5"].map escapeCSVStr))).map
          (·.notes) = [some nt]) ∧
    ((parseDiaryCSV 0 "H\nx,2024,hello").map (·.mood) = [none] ∧
     (parseMediaCSV 0 "H\nx,Anime,T,Watching").map (·.link) = [none] ∧
     (parseMediaCSV 0 "H\nx,Anime,T,Watching").map (·.notes) = [none] ∧
     (parseMediaCSV 0 "H\nx,Anime,T,Watching").map (·.rating) = [none]) := by
  refine ⟨?_, ?_, ?_, ?_, ?_, by decide⟩
  · intro now r hok
    have hok' : ∀ s ∈ ["x", "n", "a", "s", "u", r, "nt", "5"], StrOK s := by
      intro s hs
      simp only [List.mem_cons, List.not_mem_nil, or_false] at hs
      rcases hs with rfl | rfl | rfl | rfl | rfl | rfl | rfl | rfl
      · decide
      · decide
      · decide
      · decide
      · decide
      · exact hok
      · decide
      · decide
    rw [parseTravelCSV, dataLines_header_row "x" "n" ["a", "s", "u", r, "nt", "5"] hok',
      csvRows, parseLineList_cells "x" ["n", "a", "s", "u", r, "nt", "5"]]
    rw [if_neg (by simp)]
    by_cases hr : r = ""
    · simp [mkTravelSpot, colD, jsTruthy, csvRows, hr]
    · simp [mkTravelSpot, colD, jsTruthy, csvRows, hr]
  · intro now r hok
    have hok' : ∀ s ∈ ["x", "Anime", "T", "Watching", "L", r, "N", "5"], StrOK s := by
      intro s hs
      simp only [List.mem_cons, List.not_mem_nil, or_false] at hs
      rcases hs with rfl | rfl | rfl | rfl | rfl | rfl | rfl | rfl
      · decide
      · decide
      · decide
      · decide
      · decide
      · exact hok
      · decide
      · decide
    rw [parseMediaCSV,
      dataLines_header_row "x" "Anime" ["T", "Watching", "L", r, "N", "5"] hok',
      csvRows, parseLineList_cells "x" ["Anime", "T", "Watching", "L", r, "N", "5"]]
    rw [if_neg (by simp)]
    simp [mkMediaItem, colD, jsNumberOpt, csvRows]
  · intro now m hok
    have hok' : ∀ s ∈ ["x", "2024", "hello", m, "", ""], StrOK s := by
      intro s hs
      simp only [List.mem_cons, List.not_mem_nil, or_false] at hs
      rcases hs with rfl | rfl | rfl | rfl | rfl | rfl
      · decide
      · decide
      · decide
      · exact hok
      · decide
      · decide
    rw [parseDiaryCSV, dataLines_header_row "x" "2024" ["hello", m, "", ""] hok',
      csvRows, parseLineList_cells "x" ["2024", "hello", m, "", ""]]
    rw [if_neg (by simp)]
    simp [mkDiaryEntry, colD, csvRows]
  · intro now u hok
    have hok' : ∀ s ∈ ["x", "n", "a", "s", "u", "7", u, "5"], StrOK s := by
      intro s hs
      simp only [List.mem_cons, List.not_mem_nil, or_false] at hs
      rcases hs with rfl | rfl | rfl | rfl | rfl | rfl | rfl | rfl
      · decide
      · decide
      · decide
      · decide
      · decide
      · decide
      · exact hok
      · decide
    rw [parseTravelCSV, dataLines_header_row "x" "n" ["a", "s", "u", "7", u, "5"] hok',
      csvRows, parseLineList_cells "x" ["n", "a", "s", "u", "7", u, "5"]]
    rw [if_neg (by simp)]
    simp [mkTravelSpot, colD, csvRows]
  · intro now l nt hokl hoknt
    have hok' : ∀ s ∈ ["x", "Anime", "T", "Watching", l, "7", nt, "5"], StrOK s := by
      intro s hs
      simp only [List.mem_cons, List.not_mem_nil, or_false] at hs
      rcases hs with rfl | rfl | rfl | rfl | rfl | rfl | rfl | rfl
      · decide
      · decide
      · decide
      · decide
      · exact hokl
      · decide
      · exact hoknt
      · decide
    rw [parseMediaCSV,
      dataLines_header_row "x" "Anime" ["T", "Watching", l, "7", nt, "5"] hok',
      csvRows, parseLineList_cells "x" ["Anime", "T", "Watching", l, "7", nt, "5"]]
    rw [if_neg (by simp)]
    constructor
    · simp [mkMediaItem, colD, csvRows]
    · simp [mkMediaItem, colD, csvRows]

/-- Witness for C6: the parametric conjuncts applied at the empty cell (the
claim's disputed case) and at a non-empty cell. -/
theorem C6_witness :
    StrOK "" ∧ StrOK "jazz" ∧
    (parseTravelCSV 2 ("H\n" ++ joinStr ","
        (["x", "n", "a", "s", "u", "", "nt", "5"].map escapeCSVStr))).map (·.rating) =
      [if ("" : String) = "" then none else some (jsNumber "")] ∧
    (parseDiaryCSV 2 ("H\n" ++ joinStr ","
        (["x", "2024", "hello", "", "", ""].map escapeCSVStr))).map (·.mood) =
      [some ""] ∧
    (parseDiaryCSV 2 ("H\n" ++ joinStr ","
        (["x", "2024", "hello", "jazz", "", ""].map escapeCSVStr))).map (·.mood) =
      [some "jazz"] :=
  ⟨by decide, by decide,
   C6_optional_fields.1 2 "" (by decide),
   C6_optional_fields.2.2.1 2 "" (by decide),
   C6_optional_fields.2.2.1 2 "jazz" (by decide)⟩

-- ## Claim C7

/-- Claim C7 (confirmed): compound list fields round-trip through their
sub-delimiter with element order preserved: the tag list `["go", "rust"]`
serialises to the cell `go;rust` and parses back to `["go", "rust"]`, and
an empty tag list serialises to an empty cell which parses back to `[]`,
exactly. -/
theorem C7_tags_roundtrip :
    generateExperienceCSV
        [{ id := "1", title := "t", company := "c", period := "p", description := "d",
           tags := ["go", "rust"] }] =
      "\uFEFFID,Title,Company,Period,Description,Tags\n1,t,c,p,d,go;rust" ∧
    parseExperienceCSV 0 (generateExperienceCSV
        [{ id := "1", title := "t", company := "c", period := "p", description := "d",
           tags := ["go", "rust"] }]) =
      [{ id := "1", title := "t", company := "c", period := "p", description := "d",
         tags := ["go", "rust"] }] ∧
    generateExperienceCSV
        [{ id := "1", title := "t", company := "c", period := "p", description := "d",
           tags := [] }] =
      "\uFEFFID,Title,Company,Period,Description,Tags\n1,t,c,p,d," ∧
    parseExperienceCSV 0 (generateExperienceCSV
        [{ id := "1", title := "t", company := "c", period := "p", description := "d",
           tags := [] }]) =
      [{ id := "1", title := "t", company := "c", period := "p", description := "d",
         tags := [] }] := by decide

-- ## Claim C10

/-- Claim C10 (confirmed): `parseMediaCSV` never validates the type column:
the constructed record's `type` is the second cell verbatim, so a `type`
outside the four `MediaType` values (for instance `Podcast`) flows into the
result, while the `status` field is always one of the three allowed
literals. -/
theorem C10_media_type_unvalidated :
    (∀ (now : Nat) (csvText : String) (it : MediaItem), it ∈ parseMediaCSV now csvText →
      it.status = "Watching" ∨ it.status = "Completed" ∨ it.status = "Plan to Watch") ∧
    (∀ (now : Nat) (ty : String), StrOK ty →
      (parseMediaCSV now
          ("H\n" ++ joinStr "," (["x", ty, "T", "Watching"].map escapeCSVStr))).map (·.type) =
        [ty]) ∧
    ((parseMediaCSV 0 "H\nx,Podcast,T,Watching").map (·.type) = ["Podcast"]) ∧
    "Podcast" ∉ mediaTypeValues := by
  refine ⟨?_, ?_, by decide, by decide⟩
  · intro now csvText it hit
    obtain ⟨j, cols, rfl⟩ := csvRows_mem 4 (mkMediaItem now) 1 (dataLines csvText) it hit
    exact mediaStatusOf_cases (colD cols 3)
  · intro now ty hok
    have hok' : ∀ s ∈ ["x", ty, "T", "Watching"], StrOK s := by
      intro s hs
      simp only [List.mem_cons, List.not_mem_nil, or_false] at hs
      rcases hs with rfl | rfl | rfl | rfl
      · decide
      · exact hok
      · decide
      · decide
    rw [parseMediaCSV, dataLines_header_row "x" ty ["T", "Watching"] hok',
      csvRows, parseLineList_cells "x" [ty, "T", "Watching"]]
    rw [if_neg (by simp)]
    simp [mkMediaItem, colD, csvRows]

/-- Witness for C10 at the concrete type cell `Podcast`. -/
theorem C10_witness :
    StrOK "Podcast" ∧
    (parseMediaCSV 0
        ("H\n" ++ joinStr "," (["x", "Podcast", "T", "Watching"].map escapeCSVStr))).map
        (·.type) = ["Podcast"] :=
  ⟨by decide, (C10_media_type_unvalidated).2.1 0 "Podcast" (by decide)⟩

-- ## Sub-delimiter splitters undo their joins

theorem splitSemi_semi (rest cur : List Char) :
    splitSemi (';' :: rest) cur = cur :: splitSemi rest [] := rfl

theorem splitSemi_other (c : Char) (rest cur : List Char) (h : c ≠ ';') :
    splitSemi (c :: rest) cur = splitSemi rest (cur ++ [c]) := by
  rw [splitSemi.eq_def]
  split
  all_goals try simp_all

theorem splitSemi_no_semi (l : List Char) :
    ∀ cur, ';' ∉ l → splitSemi l cur = [cur ++ l] := by
  induction l with
  | nil => intro cur _; simp [splitSemi]
  | cons c t ih =>
    intro cur h
    rw [splitSemi_other c t cur (by simp at h; tauto),
      ih (cur ++ [c]) (by simp at h; tauto)]
    simp

theorem splitSemi_append (l : List Char) :
    ∀ (rest cur : List Char), ';' ∉ l →
    splitSemi (l ++ ';' :: rest) cur = (cur ++ l) :: splitSemi rest [] := by
  induction l with
  | nil => intro rest cur _; simp [splitSemi_semi]
  | cons c t ih =>
    intro rest cur h
    rw [List.cons_append, splitSemi_other c _ cur (by simp at h; tauto),
      ih rest (cur ++ [c]) (by simp at h; tauto)]
    simp

theorem splitSemi_joinWith (xs : List (List Char)) (x : List Char) :
    (∀ y ∈ x :: xs, ';' ∉ y) →
    splitSemi (joinWith [';'] (x :: xs)) [] = x :: xs := by
  induction xs generalizing x with
  | nil =>
    intro h
    rw [show joinWith [';'] [x] = x from rfl, splitSemi_no_semi x [] (h x (by simp))]
    rfl
  | cons y ys ih =>
    intro h
    rw [show joinWith [';'] (x :: y :: ys) = x ++ ';' :: joinWith [';'] (y :: ys) from by
        simp [joinWith],
      splitSemi_append x _ [] (h x (by simp))]
    have := ih y (fun z hz => h z (by simp at hz ⊢; tauto))
    simp only [List.nil_append]
    rw [this]

theorem split3Semi_triple (rest cur : List Char) :
    split3Semi (';' :: ';' :: ';' :: rest) cur = cur :: split3Semi rest [] := rfl

theorem split3Semi_other (c : Char) (rest cur : List Char) (h : c ≠ ';') :
    split3Semi (c :: rest) cur = split3Semi rest (cur ++ [c]) := by
  rw [split3Semi.eq_def]
  split
  all_goals try simp_all

theorem split3Semi_no_semi (l : List Char) :
    ∀ cur, ';' ∉ l → split3Semi l cur = [cur ++ l] := by
  induction l with
  | nil => intro cur _; simp [split3Semi]
  | cons c t ih =>
    intro cur h
    rw [split3Semi_other c t cur (by simp at h; tauto),
      ih (cur ++ [c]) (by simp at h; tauto)]
    simp

theorem split3Semi_append (l : List Char) :
    ∀ (rest cur : List Char), ';' ∉ l →
    split3Semi (l ++ ';' :: ';' :: ';' :: rest) cur =
      (cur ++ l) :: split3Semi rest [] := by
  induction l with
  | nil => intro rest cur _; simp [split3Semi_triple]
  | cons c t ih =>
    intro rest cur h
    rw [List.cons_append, split3Semi_other c _ cur (by simp at h; tauto),
      ih rest (cur ++ [c]) (by simp at h; tauto)]
    simp

theorem split3Semi_joinWith (xs : List (List Char)) (x : List Char) :
    (∀ y ∈ x :: xs, ';' ∉ y) →
    split3Semi (joinWith [';', ';', ';'] (x :: xs)) [] = x :: xs := by
  induction xs generalizing x with
  | nil =>
    intro h
    rw [show joinWith [';', ';', ';'] [x] = x from rfl,
      split3Semi_no_semi x [] (h x (by simp))]
    rfl
  | cons y ys ih =>
    intro h
    rw [show joinWith [';', ';', ';'] (x :: y :: ys) =
        x ++ ';' :: ';' :: ';' :: joinWith [';', ';', ';'] (y :: ys) from by
        simp [joinWith],
      split3Semi_append x _ [] (h x (by simp))]
    have hih := ih y (fun z hz => h z (by simp at hz ⊢; tauto))
    simp [hih]

-- ## Scalar cells round-trip

theorem string_data_eq_nil {s : String} (h : s.data = []) : s = "" := by
  rw [← string_mk_data s, h]

theorem intToString_ne_empty (n : Int) : intToString n ≠ "" := by
  intro h
  have hd := congrArg String.data h
  by_cases hn : n < 0
  · rw [intToString_data_neg hn] at hd
    simp at hd
  · rw [intToString_data_nonneg (by omega)] at hd
    exact natToDigits_ne_nil n.toNat (by simpa using hd)

theorem jsNumToString_ne_empty (v : JSNum) : jsNumToString v ≠ "" := by
  cases v with
  | nan => decide
  | num n => exact intToString_ne_empty n

theorem jsNumber_jsNumToString (v : JSNum) : jsNumber (jsNumToString v) = v := by
  cases v with
  | nan => decide
  | num n => exact jsNumber_intToString n

theorem joinStr_ne_empty (sep : String) (x : String) (xs : List String) (hx : x ≠ "") :
    joinStr sep (x :: xs) ≠ "" := by
  intro h
  have hd := congrArg String.data h
  rw [joinStr_data] at hd
  match xs with
  | [] =>
    exact hx (string_data_eq_nil (by simpa using hd))
  | y :: t =>
    rw [show joinWith sep.data ((x :: y :: t).map String.data) =
      x.data ++ sep.data ++ joinWith sep.data ((y :: t).map String.data) from rfl] at hd
    simp at hd
    exact hx (string_data_eq_nil hd.1)

theorem optStr_eta {o : Option String} (h : OptStrOK o) : some (rawOfOptStr o) = o := by
  cases o with
  | none => exact absurd h (by simp [OptStrOK])
  | some s => rfl

theorem travelStatusOf_str (s : TravelStatus) : travelStatusOf s.str = s := by
  cases s <;> decide

theorem mediaStatusOf_eq_self {s : String}
    (h : s = "Watching" ∨ s = "Completed" ∨ s = "Plan to Watch") :
    mediaStatusOf s = s := by
  rcases h with rfl | rfl | rfl <;> decide

theorem travelRating_roundtrip (v : Option JSNum) :
    (if jsTruthy (some (rawOfOptNum v)) then some (jsNumber (rawOfOptNum v)) else none) = v := by
  cases v with
  | none => decide
  | some w =>
    rw [show rawOfOptNum (some w) = jsNumToString w from rfl]
    rw [if_pos (by simp [jsTruthy, jsNumToString_ne_empty w]), jsNumber_jsNumToString]

theorem mediaRating_roundtrip (r : Option Int) (h : r ≠ some 0) :
    (match jsNumber (rawOfOptInt r) with
     | .num n => if n = 0 then none else some n
     | .nan => none) = r := by
  cases r with
  | none => decide
  | some k =>
    rw [show rawOfOptInt (some k) = intToString k from rfl, jsNumber_intToString]
    simp only []
    rw [if_neg (by intro hk; exact h (by rw [hk]))]

theorem expTags_roundtrip (tags : List String) (h : ∀ t ∈ tags, TagOK t) :
    (if jsTruthy (some (joinStr ";" tags)) then
      (splitSemi (joinStr ";" tags).data []).map (fun t => String.mk (jsTrimChars t))
    else []) = tags := by
  match tags with
  | [] => decide
  | t :: rest =>
    rw [if_pos (by simp [jsTruthy, joinStr_ne_empty ";" t rest (h t (by simp)).1])]
    have hdata : (joinStr ";" (t :: rest)).data =
        joinWith [';'] (t.data :: rest.map String.data) := by
      rw [joinStr_data]
      rfl
    have hmem : ∀ y ∈ t.data :: rest.map String.data, ';' ∉ y := by
      intro y hy
      rcases List.mem_cons.mp hy with rfl | hy
      · exact (h t (by simp)).2.1
      · obtain ⟨s, hs, rfl⟩ := List.mem_map.mp hy
        exact (h s (by simp [hs])).2.1
    rw [hdata, splitSemi_joinWith (rest.map String.data) t.data hmem]
    rw [show (t.data :: rest.map String.data) = (t :: rest).map String.data from rfl,
      List.map_map]
    have hpt : ∀ s ∈ t :: rest, ((fun l => String.mk (jsTrimChars l)) ∘ String.data) s = s := by
      intro s hs
      show String.mk (jsTrimChars s.data) = s
      rw [(h s hs).2.2.1, string_mk_data]
    calc ((t :: rest).map ((fun l => String.mk (jsTrimChars l)) ∘ String.data))
        = (t :: rest).map id := List.map_congr_left hpt
      _ = t :: rest := List.map_id _

theorem diaryImages_roundtrip (images : List String) (h : ∀ im ∈ images, ImageOK im) :
    (if jsTruthy (some (joinStr ";;;" images)) then
      (split3Semi (joinStr ";;;" images).data []).map String.mk
    else []) = images := by
  match images with
  | [] => decide
  | im :: rest =>
    rw [if_pos (by simp [jsTruthy, joinStr_ne_empty ";;;" im rest (h im (by simp)).1])]
    have hdata : (joinStr ";;;" (im :: rest)).data =
        joinWith [';', ';', ';'] (im.data :: rest.map String.data) := by
      rw [joinStr_data]
      rfl
    have hmem : ∀ y ∈ im.data :: rest.map String.data, ';' ∉ y := by
      intro y hy
      rcases List.mem_cons.mp hy with rfl | hy
      · exact (h im (by simp)).2.1
      · obtain ⟨s, hs, rfl⟩ := List.mem_map.mp hy
        exact (h s (by simp [hs])).2.1
    rw [hdata, split3Semi_joinWith (rest.map String.data) im.data hmem]
    rw [show (im.data :: rest.map String.data) = (im :: rest).map String.data from rfl,
      List.map_map]
    exact map_mk_comp_data (im :: rest)

-- ## Generator normal forms

theorem bom_cons_joinWith (x : List Char) (xs : List (List Char)) :
    '\uFEFF' :: joinWith ['\n'] (x :: xs) = joinWith ['\n'] (('\uFEFF' :: x) :: xs) := by
  match xs with
  | [] => rfl
  | y :: t => simp [joinWith]

theorem mem_joinWith {c : Char} (sep : List Char) :
    ∀ {ls : List (List Char)}, c ∈ joinWith sep ls → (∃ x ∈ ls, c ∈ x) ∨ c ∈ sep := by
  intro ls
  induction ls with
  | nil => simp [joinWith]
  | cons x xs ih =>
    intro h
    match xs with
    | [] =>
      left; exact ⟨x, by simp, by simpa [joinWith] using h⟩
    | y :: t =>
      rw [show joinWith sep (x :: y :: t) = x ++ sep ++ joinWith sep (y :: t) from rfl] at h
      rcases List.mem_append.mp h with h | h
      · rcases List.mem_append.mp h with h | h
        · left; exact ⟨x, by simp, h⟩
        · right; exact h
      · rcases ih h with ⟨z, hz, hcz⟩ | h
        · left; exact ⟨z, by simp [hz], hcz⟩
        · right; exact h

theorem joinStr_StrOK (sep : String) (hsep : StrOK sep) (l : List String)
    (h : ∀ s ∈ l, StrOK s) : StrOK (joinStr sep l) := by
  intro c hc
  rw [joinStr_data] at hc
  rcases mem_joinWith sep.data hc with ⟨x, hx, hcx⟩ | hc
  · obtain ⟨s, hs, rfl⟩ := List.mem_map.mp hx
    exact h s hs c hcx
  · exact hsep c hc

theorem escapeCSV_optStrVal (o : Option String) :
    escapeCSV (optStrVal o) = escapeCSVStr (rawOfOptStr o) := by
  cases o <;> rfl

theorem escapeCSV_optNumVal (o : Option JSNum) :
    escapeCSV (optNumVal o) = escapeCSVStr (rawOfOptNum o) := by
  cases o <;> rfl

theorem escapeCSV_optIntVal (o : Option Int) :
    escapeCSV (optIntVal o) = escapeCSVStr (rawOfOptInt o) := by
  cases o <;> rfl

theorem escapeCSV_vstr (s : String) : escapeCSV (.vstr s) = escapeCSVStr s := rfl

theorem escapeCSV_vnum_num (n : Int) :
    escapeCSV (.vnum (.num n)) = escapeCSVStr (intToString n) := rfl

theorem travelCells_escape (it : TravelSpot) :
    (travelCells it).map escapeCSV = (travelRaw it).map escapeCSVStr := by
  simp only [travelCells, travelRaw, List.map_cons, List.map_nil, escapeCSV_vstr,
    escapeCSV_vnum_num, escapeCSV_optStrVal, escapeCSV_optNumVal]

theorem musicCells_escape (it : MusicItem) :
    (musicCells it).map escapeCSV = (musicRaw it).map escapeCSVStr := by
  simp only [musicCells, musicRaw, List.map_cons, List.map_nil, escapeCSV_vstr,
    escapeCSV_vnum_num, escapeCSV_optStrVal]

theorem mediaCells_escape (it : MediaItem) :
    (mediaCells it).map escapeCSV = (mediaRaw it).map escapeCSVStr := by
  simp only [mediaCells, mediaRaw, List.map_cons, List.map_nil, escapeCSV_vstr,
    escapeCSV_vnum_num, escapeCSV_optStrVal, escapeCSV_optIntVal]

theorem experienceCells_escape (it : ExperienceItem) :
    (experienceCells it).map escapeCSV = (experienceRaw it).map escapeCSVStr := rfl

theorem diaryCells_escape (it : DiaryEntry) :
    (diaryCells it).map escapeCSV = (diaryRaw it).map escapeCSVStr := by
  simp only [diaryCells, diaryRaw, List.map_cons, List.map_nil, escapeCSV_vstr,
    escapeCSV_vnum_num, escapeCSV_optStrVal]

theorem generateTravelCSV_eq (items : List TravelSpot) :
    generateTravelCSV items =
      "\uFEFF" ++ joinStr "\n"
        (joinStr ","
          ["ID", "Name", "Address", "Status", "GoogleMapsUri", "Rating", "UserNotes",
           "AddedAt"] :: items.map travelRow) := by
  rw [generateTravelCSV]
  have hrow : ∀ it : TravelSpot,
      joinStr "," ((travelCells it).map escapeCSV) = travelRow it := by
    intro it
    rw [travelRow, travelCells_escape]
  simp only [hrow]

theorem generateMusicCSV_eq (items : List MusicItem) :
    generateMusicCSV items =
      "\uFEFF" ++ joinStr "\n"
        (joinStr "," ["ID", "Artist", "Song", "URL", "AddedAt"] :: items.map musicRow) := by
  rw [generateMusicCSV]
  have hrow : ∀ it : MusicItem,
      joinStr "," ((musicCells it).map escapeCSV) = musicRow it := by
    intro it
    rw [musicRow, musicCells_escape]
  simp only [hrow]

theorem generateMediaCSV_eq (items : List MediaItem) :
    generateMediaCSV items =
      "\uFEFF" ++ joinStr "\n"
        (joinStr ","
          ["ID", "Type", "Title", "Status", "Link", "Rating", "Notes", "AddedAt"] ::
          items.map mediaRow) := by
  rw [generateMediaCSV]
  have hrow : ∀ it : MediaItem,
      joinStr "," ((mediaCells it).map escapeCSV) = mediaRow it := by
    intro it
    rw [mediaRow, mediaCells_escape]
  simp only [hrow]

theorem generateExperienceCSV_eq (items : List ExperienceItem) :
    generateExperienceCSV items =
      "\uFEFF" ++ joinStr "\n"
        (joinStr "," ["ID", "Title", "Company", "Period", "Description", "Tags"] ::
          items.map experienceRow) := by
  rw [generateExperienceCSV]
  rfl

theorem generateDiaryCSV_eq (items : List DiaryEntry) :
    generateDiaryCSV items =
      "\uFEFF" ++ joinStr "\n"
        (joinStr "," ["ID", "Date", "Content", "Mood", "Images(Base64;)", "AddedAt"] ::
          items.map diaryRow) := by
  rw [generateDiaryCSV]
  have hrow : ∀ it : DiaryEntry,
      joinStr "," ((diaryCells it).map escapeCSV) = diaryRow it := by
    intro it
    rw [diaryRow, diaryCells_escape]
  simp only [hrow]

/-- The data lines of any generated text are exactly the data rows, when
the header and every row are free of line terminators and survive the
blank-line filter. -/
theorem dataLines_generate (header : String) (rows : List String)
    (hheader : ∀ c ∈ header.data, c ≠ '\n' ∧ c ≠ '\r')
    (hkeepH : keepLine ('\uFEFF' :: header.data) = true)
    (hrows : ∀ r ∈ rows, (∀ c ∈ r.data, c ≠ '\n' ∧ c ≠ '\r') ∧ keepLine r.data = true) :
    dataLines ("\uFEFF" ++ joinStr "\n" (header :: rows)) = rows.map String.data := by
  rw [dataLines, csvLines, string_append_data,
    show ("\uFEFF" : String).data = ['\uFEFF'] from by decide, joinStr_data,
    show ((header :: rows).map String.data) = header.data :: rows.map String.data from rfl,
    show ("\n" : String).data = ['\n'] from by decide,
    List.singleton_append, bom_cons_joinWith, splitAux_joinWith_lf]
  · rw [List.filter_cons_of_pos hkeepH, List.filter_eq_self.mpr, List.drop_one,
      List.tail_cons]
    intro l hl
    obtain ⟨r, hr, rfl⟩ := List.mem_map.mp hl
    exact (hrows r hr).2
  · intro x hx
    rcases List.mem_cons.mp hx with rfl | hx
    · intro c hc
      rcases List.mem_cons.mp hc with rfl | hc
      · exact ⟨by decide, by decide⟩
      · exact hheader c hc
    · obtain ⟨r, hr, rfl⟩ := List.mem_map.mp hx
      exact (hrows r hr).1

-- ## Claim C1

theorem intToString_StrOK (n : Int) : StrOK (intToString n) := by
  intro c hc
  by_cases h : n < 0
  · rw [intToString_data_neg h] at hc
    rcases List.mem_cons.mp hc with rfl | hc
    · exact ⟨by decide, by decide⟩
    · obtain ⟨d, hd, rfl⟩ := natToDigits_forall n.natAbs c hc
      exact ⟨(digitChar_spec d hd).2.2.2.2.1, (digitChar_spec d hd).2.2.2.2.2.1⟩
  · rw [intToString_data_nonneg (by omega)] at hc
    obtain ⟨d, hd, rfl⟩ := natToDigits_forall n.toNat c hc
    exact ⟨(digitChar_spec d hd).2.2.2.2.1, (digitChar_spec d hd).2.2.2.2.2.1⟩

theorem japaneseRaw_StrOK {it : JapaneseWord} (h : it.Good) :
    ∀ s ∈ japaneseRaw it, StrOK s := by
  obtain ⟨h1, h2, h3, h4, h5, h6, h7, _, _⟩ := h
  intro s hs
  simp only [japaneseRaw, List.mem_cons, List.not_mem_nil, or_false] at hs
  rcases hs with rfl | rfl | rfl | rfl | rfl | rfl | rfl | rfl
  · exact h1
  · exact h2
  · exact h3
  · exact h4
  · exact h5
  · exact h6
  · exact h7
  · exact intToString_StrOK it.addedAt

theorem japaneseCells_escape (it : JapaneseWord) :
    (japaneseCells it).map escapeCSV = (japaneseRaw it).map escapeCSVStr := rfl

theorem generateJapaneseCSV_eq (items : List JapaneseWord) :
    generateJapaneseCSV items =
      "\uFEFF" ++ joinStr "\n"
        (joinStr ","
          ["ID", "Word", "Reading", "Meaning (CH)", "Meaning (JP)", "Example",
           "Example Translation", "AddedAt"] :: items.map japaneseRow) := by
  rw [generateJapaneseCSV]
  rfl

theorem dataLines_generateJapanese (items : List JapaneseWord)
    (h : ∀ it ∈ items, it.Good) :
    dataLines (generateJapaneseCSV items) = items.map (fun it => (japaneseRow it).data) := by
  rw [dataLines, csvLines, generateJapaneseCSV_eq, string_append_data,
    show ("\uFEFF" : String).data = ['\uFEFF'] from by decide, joinStr_data,
    show ((joinStr ","
        ["ID", "Word", "Reading", "Meaning (CH)", "Meaning (JP)", "Example",
         "Example Translation", "AddedAt"] :: items.map japaneseRow).map String.data) =
      (joinStr ","
        ["ID", "Word", "Reading", "Meaning (CH)", "Meaning (JP)", "Example",
         "Example Translation", "AddedAt"]).data ::
        (items.map japaneseRow).map String.data from rfl,
    show ("\n" : String).data = ['\n'] from by decide]
  rw [List.singleton_append, bom_cons_joinWith]
  rw [splitAux_joinWith_lf]
  · rw [List.filter_cons_of_pos (by decide)]
    rw [List.filter_eq_self.mpr, List.drop_one, List.tail_cons, List.map_map]
    · rfl
    · intro l hl
      rw [List.map_map] at hl
      obtain ⟨it, hit, rfl⟩ := List.mem_map.mp hl
      show keepLine (japaneseRow it).data = true
      rw [japaneseRow]
      exact keepLine_row it.id it.word _
  · intro x hx
    rcases List.mem_cons.mp hx with rfl | hx
    · intro c hc
      rcases List.mem_cons.mp hc with rfl | hc
      · exact ⟨by decide, by decide⟩
      · revert hc
        have : ∀ c ∈ (joinStr ","
            ["ID", "Word", "Reading", "Meaning (CH)", "Meaning (JP)", "Example",
             "Example Translation", "AddedAt"]).data, c ≠ '\n' ∧ c ≠ '\r' := by decide
        exact this c
    · rw [List.map_map] at hx
      obtain ⟨it, hit, rfl⟩ := List.mem_map.mp hx
      show ∀ c ∈ (japaneseRow it).data, c ≠ '\n' ∧ c ≠ '\r'
      rw [japaneseRow]
      exact noNLCR_row (japaneseRaw it) (japaneseRaw_StrOK (h it hit))

theorem mkJapaneseWord_inv (now i : Nat) (it : JapaneseWord)
    (hid : it.id ≠ "") (ha : it.addedAt ≠ 0) :
    mkJapaneseWord now i (japaneseRaw it) = it := by
  cases it with
  | mk id word reading meaning meaningJP ex tr addedAt =>
    simp only [JapaneseWord.mk.injEq] at hid ha ⊢
    simp [mkJapaneseWord, japaneseRaw, colD, jsStrOr, jsNumberOpt,
      jsNumber_intToString, jsNumOr, hid, ha]

theorem csvRows_japaneseRow (now : Nat) (items : List JapaneseWord)
    (h : ∀ it ∈ items, it.Good) :
    ∀ i, csvRows 7 (mkJapaneseWord now) i (items.map (fun it => (japaneseRow it).data)) =
      items := by
  induction items with
  | nil => intro i; rfl
  | cons it t ih =>
    intro i
    have hg := h it (by simp)
    have hcols : parseLineList (japaneseRow it).data = japaneseRaw it := by
      rw [japaneseRow,
        show japaneseRaw it = it.id ::
          [it.word, it.reading, it.meaning, it.meaningJP, it.exampleSentence,
           it.exampleTranslation, intToString it.addedAt] from rfl]
      exact parseLineList_cells it.id _
    rw [List.map_cons, csvRows, hcols]
    rw [if_neg (by simp [japaneseRaw])]
    rw [mkJapaneseWord_inv now i it hg.2.2.2.2.2.2.2.1 hg.2.2.2.2.2.2.2.2,
      ih (fun x hx => h x (by simp [hx])) (i + 1)]

/-- The Vocabulary adapter round-trips every `Good` record list exactly. -/
theorem japaneseCSV_roundtrip (now : Nat) (items : List JapaneseWord)
    (h : ∀ it ∈ items, it.Good) :
    parseJapaneseCSV now (generateJapaneseCSV items) = items := by
  rw [parseJapaneseCSV, dataLines_generateJapanese items h]
  exact csvRows_japaneseRow now items h 1

-- ## Round-trips of the other five adapters

/-- The uniform shape of the six round-trip arguments: each generated row
parses back to its cells and the row constructor inverts the generator. -/
theorem csvRows_of_inv {α : Type} (minCols : Nat) (mk : Nat → List String → α)
    (items : List α) (row : α → List Char)
    (h : ∀ it ∈ items, ¬((parseLineList (row it)).length < minCols) ∧
         ∀ i, mk i (parseLineList (row it)) = it) :
    ∀ i, csvRows minCols mk i (items.map row) = items := by
  induction items with
  | nil => intro i; rfl
  | cons it t ih =>
    intro i
    rw [List.map_cons, csvRows, if_neg (h it (by simp)).1, (h it (by simp)).2 i,
      ih (fun x hx => h x (by simp [hx])) (i + 1)]

theorem StrOK_empty : StrOK "" := by decide

theorem statusStr_StrOK (s : TravelStatus) : StrOK s.str := by
  cases s <;> decide

theorem jsNumToString_StrOK (v : JSNum) : StrOK (jsNumToString v) := by
  cases v with
  | nan => decide
  | num n => exact intToString_StrOK n

theorem rawOfOptStr_StrOK {o : Option String} (h : OptStrOK o) : StrOK (rawOfOptStr o) := by
  cases o with
  | none => exact StrOK_empty
  | some s => exact h

theorem rawOfOptNum_StrOK (o : Option JSNum) : StrOK (rawOfOptNum o) := by
  cases o with
  | none => exact StrOK_empty
  | some v => exact jsNumToString_StrOK v

theorem rawOfOptInt_StrOK (o : Option Int) : StrOK (rawOfOptInt o) := by
  cases o with
  | none => exact StrOK_empty
  | some n => exact intToString_StrOK n

theorem travelRaw_StrOK {it : TravelSpot} (h : it.Good) : ∀ s ∈ travelRaw it, StrOK s := by
  obtain ⟨h1, _, h3, haddr, hgmu, hnotes, _⟩ := h
  intro s hs
  simp only [travelRaw, List.mem_cons, List.not_mem_nil, or_false] at hs
  rcases hs with rfl | rfl | rfl | rfl | rfl | rfl | rfl | rfl
  · exact h1
  · exact h3
  · exact rawOfOptStr_StrOK haddr
  · exact statusStr_StrOK it.status
  · exact rawOfOptStr_StrOK hgmu
  · exact rawOfOptNum_StrOK it.rating
  · exact rawOfOptStr_StrOK hnotes
  · exact intToString_StrOK it.addedAt

theorem musicRaw_StrOK {it : MusicItem} (h : it.Good) : ∀ s ∈ musicRaw it, StrOK s := by
  obtain ⟨h1, _, h3, h4, hurl, _⟩ := h
  intro s hs
  simp only [musicRaw, List.mem_cons, List.not_mem_nil, or_false] at hs
  rcases hs with rfl | rfl | rfl | rfl | rfl
  · exact h1
  · exact h3
  · exact h4
  · exact rawOfOptStr_StrOK hurl
  · exact intToString_StrOK it.addedAt

theorem mediaStatus_StrOK {s : String}
    (h : s = "Watching" ∨ s = "Completed" ∨ s = "Plan to Watch") : StrOK s := by
  rcases h with rfl | rfl | rfl <;> decide

theorem mediaRaw_StrOK {it : MediaItem} (h : it.Good) : ∀ s ∈ mediaRaw it, StrOK s := by
  obtain ⟨h1, _, h3, h4, hstat, hlink, _, hnotes, _⟩ := h
  intro s hs
  simp only [mediaRaw, List.mem_cons, List.not_mem_nil, or_false] at hs
  rcases hs with rfl | rfl | rfl | rfl | rfl | rfl | rfl | rfl
  · exact h1
  · exact h3
  · exact h4
  · exact mediaStatus_StrOK hstat
  · exact rawOfOptStr_StrOK hlink
  · exact rawOfOptInt_StrOK it.rating
  · exact rawOfOptStr_StrOK hnotes
  · exact intToString_StrOK it.addedAt

theorem experienceRaw_StrOK {it : ExperienceItem} (h : it.Good) :
    ∀ s ∈ experienceRaw it, StrOK s := by
  obtain ⟨h1, _, h3, h4, h5, h6, htags⟩ := h
  intro s hs
  simp only [experienceRaw, List.mem_cons, List.not_mem_nil, or_false] at hs
  rcases hs with rfl | rfl | rfl | rfl | rfl | rfl
  · exact h1
  · exact h3
  · exact h4
  · exact h5
  · exact h6
  · exact joinStr_StrOK ";" (by decide) it.tags (fun t ht => (htags t ht).2.2.2)

theorem diaryRaw_StrOK {it : DiaryEntry} (h : it.Good) : ∀ s ∈ diaryRaw it, StrOK s := by
  obtain ⟨h1, _, h3, h4, hmood, him, _⟩ := h
  intro s hs
  simp only [diaryRaw, List.mem_cons, List.not_mem_nil, or_false] at hs
  rcases hs with rfl | rfl | rfl | rfl | rfl | rfl
  · exact h1
  · exact h3
  · exact h4
  · exact rawOfOptStr_StrOK hmood
  · exact joinStr_StrOK ";;;" (by decide) it.images (fun im hi => (him im hi).2.2)
  · exact intToString_StrOK it.addedAt

theorem mkTravelSpot_inv (now i : Nat) (it : TravelSpot) (hg : it.Good) :
    mkTravelSpot now i (travelRaw it) = it := by
  cases it with
  | mk id name address status gmu rating notes addedAt =>
    obtain ⟨h1, hid, h3, haddr, hgmu, hnotes, ha⟩ := hg
    simp [mkTravelSpot, travelRaw, colD, jsStrOr, jsNumberOpt, jsNumber_intToString,
      jsNumOr, hid, ha, optStr_eta haddr, optStr_eta hgmu, optStr_eta hnotes,
      travelStatusOf_str, travelRating_roundtrip]

theorem mkMusicItem_inv (now i : Nat) (it : MusicItem) (hg : it.Good) :
    mkMusicItem now i (musicRaw it) = it := by
  cases it with
  | mk id artist song url addedAt =>
    obtain ⟨h1, hid, h3, h4, hurl, ha⟩ := hg
    simp [mkMusicItem, musicRaw, colD, jsStrOr, jsNumberOpt, jsNumber_intToString,
      jsNumOr, hid, ha, optStr_eta hurl]

theorem mkMediaItem_inv (now i : Nat) (it : MediaItem) (hg : it.Good) :
    mkMediaItem now i (mediaRaw it) = it := by
  cases it with
  | mk id ty title status link rating notes addedAt =>
    obtain ⟨h1, hid, h3, h4, hstat, hlink, hrat, hnotes, ha⟩ := hg
    cases rating with
    | none =>
      simp [mkMediaItem, mediaRaw, colD, jsStrOr, jsNumberOpt, jsNumber_intToString,
        jsNumOr, hid, ha, optStr_eta hlink, optStr_eta hnotes,
        mediaStatusOf_eq_self hstat, rawOfOptInt,
        show jsNumber "" = .num 0 from by decide]
    | some k =>
      have hk : k ≠ 0 := by
        intro h0
        exact hrat (by rw [h0])
      simp [mkMediaItem, mediaRaw, colD, jsStrOr, jsNumberOpt, jsNumber_intToString,
        jsNumOr, hid, ha, optStr_eta hlink, optStr_eta hnotes,
        mediaStatusOf_eq_self hstat, rawOfOptInt, hk]

theorem mkExperienceItem_inv (now i : Nat) (it : ExperienceItem) (hg : it.Good) :
    mkExperienceItem now i (experienceRaw it) = it := by
  cases it with
  | mk id title company period description tags =>
    obtain ⟨h1, hid, h3, h4, h5, h6, htags⟩ := hg
    simp [mkExperienceItem, experienceRaw, colD, jsStrOr, hid,
      expTags_roundtrip tags htags]

theorem mkDiaryEntry_inv (now i : Nat) (it : DiaryEntry) (hg : it.Good) :
    mkDiaryEntry now i (diaryRaw it) = it := by
  cases it with
  | mk id date content mood images addedAt =>
    obtain ⟨h1, hid, h3, h4, hmood, him, ha⟩ := hg
    simp [mkDiaryEntry, diaryRaw, colD, jsStrOr, jsNumberOpt, jsNumber_intToString,
      jsNumOr, hid, ha, optStr_eta hmood, diaryImages_roundtrip images him]

theorem dataLines_generateTravel (items : List TravelSpot)
    (h : ∀ it ∈ items, it.Good) :
    dataLines (generateTravelCSV items) = items.map (fun it => (travelRow it).data) := by
  have hrows : ∀ r ∈ items.map travelRow,
      (∀ c ∈ r.data, c ≠ '\n' ∧ c ≠ '\r') ∧ keepLine r.data = true := by
    intro r hr
    obtain ⟨it, hit, rfl⟩ := List.mem_map.mp hr
    constructor
    · rw [travelRow]
      exact noNLCR_row (travelRaw it) (travelRaw_StrOK (h it hit))
    · rw [travelRow, show travelRaw it = it.id ::
        [it.name, rawOfOptStr it.address, it.status.str, rawOfOptStr it.googleMapsUri,
         rawOfOptNum it.rating, rawOfOptStr it.userNotes,
         intToString it.addedAt] from rfl]
      exact keepLine_row it.id it.name _
  rw [generateTravelCSV_eq, dataLines_generate _ _ (by decide) (by decide) hrows,
    List.map_map]
  rfl

/-- The Travel adapter round-trips every `Good` record list exactly. -/
theorem travelCSV_roundtrip (now : Nat) (items : List TravelSpot)
    (h : ∀ it ∈ items, it.Good) :
    parseTravelCSV now (generateTravelCSV items) = items := by
  rw [parseTravelCSV, dataLines_generateTravel items h]
  apply csvRows_of_inv
  intro it hit
  have hcols : parseLineList (travelRow it).data = travelRaw it := by
    rw [travelRow, show travelRaw it = it.id ::
      [it.name, rawOfOptStr it.address, it.status.str, rawOfOptStr it.googleMapsUri,
       rawOfOptNum it.rating, rawOfOptStr it.userNotes, intToString it.addedAt] from rfl]
    exact parseLineList_cells it.id _
  exact ⟨by rw [hcols]; simp [travelRaw],
    fun i => by rw [hcols]; exact mkTravelSpot_inv now i it (h it hit)⟩

theorem dataLines_generateMusic (items : List MusicItem)
    (h : ∀ it ∈ items, it.Good) :
    dataLines (generateMusicCSV items) = items.map (fun it => (musicRow it).data) := by
  have hrows : ∀ r ∈ items.map musicRow,
      (∀ c ∈ r.data, c ≠ '\n' ∧ c ≠ '\r') ∧ keepLine r.data = true := by
    intro r hr
    obtain ⟨it, hit, rfl⟩ := List.mem_map.mp hr
    constructor
    · rw [musicRow]
      exact noNLCR_row (musicRaw it) (musicRaw_StrOK (h it hit))
    · rw [musicRow, show musicRaw it = it.id ::
        [it.artist, it.song, rawOfOptStr it.url, intToString it.addedAt] from rfl]
      exact keepLine_row it.id it.artist _
  rw [generateMusicCSV_eq, dataLines_generate _ _ (by decide) (by decide) hrows,
    List.map_map]
  rfl

/-- The Music adapter round-trips every `Good` record list exactly. -/
theorem musicCSV_roundtrip (now : Nat) (items : List MusicItem)
    (h : ∀ it ∈ items, it.Good) :
    parseMusicCSV now (generateMusicCSV items) = items := by
  rw [parseMusicCSV, dataLines_generateMusic items h]
  apply csvRows_of_inv
  intro it hit
  have hcols : parseLineList (musicRow it).data = musicRaw it := by
    rw [musicRow, show musicRaw it = it.id ::
      [it.artist, it.song, rawOfOptStr it.url, intToString it.addedAt] from rfl]
    exact parseLineList_cells it.id _
  exact ⟨by rw [hcols]; simp [musicRaw],
    fun i => by rw [hcols]; exact mkMusicItem_inv now i it (h it hit)⟩

theorem dataLines_generateMedia (items : List MediaItem)
    (h : ∀ it ∈ items, it.Good) :
    dataLines (generateMediaCSV items) = items.map (fun it => (mediaRow it).data) := by
  have hrows : ∀ r ∈ items.map mediaRow,
      (∀ c ∈ r.data, c ≠ '\n' ∧ c ≠ '\r') ∧ keepLine r.data = true := by
    intro r hr
    obtain ⟨it, hit, rfl⟩ := List.mem_map.mp hr
    constructor
    · rw [mediaRow]
      exact noNLCR_row (mediaRaw it) (mediaRaw_StrOK (h it hit))
    · rw [mediaRow, show mediaRaw it = it.id ::
        [it.type, it.title, it.status, rawOfOptStr it.link, rawOfOptInt it.rating,
         rawOfOptStr it.notes, intToString it.addedAt] from rfl]
      exact keepLine_row it.id it.type _
  rw [generateMediaCSV_eq, dataLines_generate _ _ (by decide) (by decide) hrows,
    List.map_map]
  rfl

/-- The Entertainment adapter round-trips every `Good` record list
exactly. -/
theorem mediaCSV_roundtrip (now : Nat) (items : List MediaItem)
    (h : ∀ it ∈ items, it.Good) :
    parseMediaCSV now (generateMediaCSV items) = items := by
  rw [parseMediaCSV, dataLines_generateMedia items h]
  apply csvRows_of_inv
  intro it hit
  have hcols : parseLineList (mediaRow it).data = mediaRaw it := by
    rw [mediaRow, show mediaRaw it = it.id ::
      [it.type, it.title, it.status, rawOfOptStr it.link, rawOfOptInt it.rating,
       rawOfOptStr it.notes, intToString it.addedAt] from rfl]
    exact parseLineList_cells it.id _
  exact ⟨by rw [hcols]; simp [mediaRaw],
    fun i => by rw [hcols]; exact mkMediaItem_inv now i it (h it hit)⟩

theorem dataLines_generateExperience (items : List ExperienceItem)
    (h : ∀ it ∈ items, it.Good) :
    dataLines (generateExperienceCSV items) =
      items.map (fun it => (experienceRow it).data) := by
  have hrows : ∀ r ∈ items.map experienceRow,
      (∀ c ∈ r.data, c ≠ '\n' ∧ c ≠ '\r') ∧ keepLine r.data = true := by
    intro r hr
    obtain ⟨it, hit, rfl⟩ := List.mem_map.mp hr
    constructor
    · rw [experienceRow]
      exact noNLCR_row (experienceRaw it) (experienceRaw_StrOK (h it hit))
    · rw [experienceRow, show experienceRaw it = it.id ::
        [it.title, it.company, it.period, it.description,
         joinStr ";" it.tags] from rfl]
      exact keepLine_row it.id it.title _
  rw [generateExperienceCSV_eq, dataLines_generate _ _ (by decide) (by decide) hrows,
    List.map_map]
  rfl

/-- The Experience adapter round-trips every `Good` record list exactly. -/
theorem experienceCSV_roundtrip (now : Nat) (items : List ExperienceItem)
    (h : ∀ it ∈ items, it.Good) :
    parseExperienceCSV now (generateExperienceCSV items) = items := by
  rw [parseExperienceCSV, dataLines_generateExperience items h]
  apply csvRows_of_inv
  intro it hit
  have hcols : parseLineList (experienceRow it).data = experienceRaw it := by
    rw [experienceRow, show experienceRaw it = it.id ::
      [it.title, it.company, it.period, it.description, joinStr ";" it.tags] from rfl]
    exact parseLineList_cells it.id _
  exact ⟨by rw [hcols]; simp [experienceRaw],
    fun i => by rw [hcols]; exact mkExperienceItem_inv now i it (h it hit)⟩

theorem dataLines_generateDiary (items : List DiaryEntry)
    (h : ∀ it ∈ items, it.Good) :
    dataLines (generateDiaryCSV items) = items.map (fun it => (diaryRow it).data) := by
  have hrows : ∀ r ∈ items.map diaryRow,
      (∀ c ∈ r.data, c ≠ '\n' ∧ c ≠ '\r') ∧ keepLine r.data = true := by
    intro r hr
    obtain ⟨it, hit, rfl⟩ := List.mem_map.mp hr
    constructor
    · rw [diaryRow]
      exact noNLCR_row (diaryRaw it) (diaryRaw_StrOK (h it hit))
    · rw [diaryRow, show diaryRaw it = it.id ::
        [it.date, it.content, rawOfOptStr it.mood, joinStr ";;;" it.images,
         intToString it.addedAt] from rfl]
      exact keepLine_row it.id it.date _
  rw [generateDiaryCSV_eq, dataLines_generate _ _ (by decide) (by decide) hrows,
    List.map_map]
  rfl

/-- The Diary adapter round-trips every `Good` record list exactly. -/
theorem diaryCSV_roundtrip (now : Nat) (items : List DiaryEntry)
    (h : ∀ it ∈ items, it.Good) :
    parseDiaryCSV now (generateDiaryCSV items) = items := by
  rw [parseDiaryCSV, dataLines_generateDiary items h]
  apply csvRows_of_inv
  intro it hit
  have hcols : parseLineList (diaryRow it).data = diaryRaw it := by
    rw [diaryRow, show diaryRaw it = it.id ::
      [it.date, it.content, rawOfOptStr it.mood, joinStr ";;;" it.images,
       intToString it.addedAt] from rfl]
    exact parseLineList_cells it.id _
  exact ⟨by rw [hcols]; simp [diaryRaw],
    fun i => by rw [hcols]; exact mkDiaryEntry_inv now i it (h it hit)⟩

/-- Claim C1 (corrected): for each of the six schema adapters, parsing the
generated CSV text returns the input list exactly — all fields, id and
`addedAt` included — for record lists whose cells survive the text
pipeline: string fields free of line terminators, non-empty ids, nonzero
`addedAt` where the schema has one, optional string fields present, the
Entertainment `status` one of its three literals and its rating not the
falsy `0`, and tag/image list elements non-empty, sub-delimiter-free and
(for tags) whitespace-trim-invariant.  The unrestricted claim is false: a
field containing a newline is quoted by the escaper but the line splitter
cuts the row apart before quotes are interpreted (see the
counterexample). -/
theorem C1_roundtrip_each_adapter :
    (∀ (now : Nat) (items : List JapaneseWord), (∀ it ∈ items, it.Good) →
      parseJapaneseCSV now (generateJapaneseCSV items) = items) ∧
    (∀ (now : Nat) (items : List TravelSpot), (∀ it ∈ items, it.Good) →
      parseTravelCSV now (generateTravelCSV items) = items) ∧
    (∀ (now : Nat) (items : List MusicItem), (∀ it ∈ items, it.Good) →
      parseMusicCSV now (generateMusicCSV items) = items) ∧
    (∀ (now : Nat) (items : List MediaItem), (∀ it ∈ items, it.Good) →
      parseMediaCSV now (generateMediaCSV items) = items) ∧
    (∀ (now : Nat) (items : List ExperienceItem), (∀ it ∈ items, it.Good) →
      parseExperienceCSV now (generateExperienceCSV items) = items) ∧
    (∀ (now : Nat) (items : List DiaryEntry), (∀ it ∈ items, it.Good) →
      parseDiaryCSV now (generateDiaryCSV items) = items) :=
  ⟨japaneseCSV_roundtrip, travelCSV_roundtrip, musicCSV_roundtrip, mediaCSV_roundtrip,
   experienceCSV_roundtrip, diaryCSV_roundtrip⟩

/-- Witness for C1: a concrete two-record Vocabulary list (with a comma and
a quote in fields) and a concrete one-record Diary list (with mood and two
images) both round-trip, via the claim theorem. -/
theorem C1_witness :
    ((∀ it ∈ ([⟨"1", "犬", "いぬ", "狗", "イヌ", "犬がいる", "有狗", 1700000000000⟩,
               ⟨"2", "a,b", "a\"b", "m", "j", "e", "t", -5⟩] : List JapaneseWord),
        it.Good) ∧
      parseJapaneseCSV 3 (generateJapaneseCSV
          [⟨"1", "犬", "いぬ", "狗", "イヌ", "犬がいる", "有狗", 1700000000000⟩,
           ⟨"2", "a,b", "a\"b", "m", "j", "e", "t", -5⟩]) =
        [⟨"1", "犬", "いぬ", "狗", "イヌ", "犬がいる", "有狗", 1700000000000⟩,
         ⟨"2", "a,b", "a\"b", "m", "j", "e", "t", -5⟩]) ∧
    ((∀ it ∈ ([⟨"d1", "2024-01-01", "hello, world", some "happy",
                ["aGVsbG8=", "d29ybGQ="], 9⟩] : List DiaryEntry), it.Good) ∧
      parseDiaryCSV 3 (generateDiaryCSV
          [⟨"d1", "2024-01-01", "hello, world", some "happy",
            ["aGVsbG8=", "d29ybGQ="], 9⟩]) =
        [⟨"d1", "2024-01-01", "hello, world", some "happy",
          ["aGVsbG8=", "d29ybGQ="], 9⟩]) :=
  ⟨⟨by decide, C1_roundtrip_each_adapter.1 3 _ (by decide)⟩,
   ⟨by decide, C1_roundtrip_each_adapter.2.2.2.2.2 3 _ (by decide)⟩⟩

/-- Counterexample to C1 as stated: a record whose `word` contains a newline
does not round-trip (both derived rows are malformed and dropped, so the
parse result is empty). -/
theorem C1_counterexample :
    parseJapaneseCSV 0 (generateJapaneseCSV
        [{ id := "1", word := "a\nb", reading := "r", meaning := "m",
           meaningJP := "j", exampleSentence := "e", exampleTranslation := "t",
           addedAt := 5 }]) ≠
      [{ id := "1", word := "a\nb", reading := "r", meaning := "m",
         meaningJP := "j", exampleSentence := "e", exampleTranslation := "t",
         addedAt := 5 }] := by decide

-- ## Claim C8

theorem csvRows_jap_synth (now : Nat) :
    ∀ (ls : List (List Char)) (i : Nat),
    (∀ l ∈ ls, colD (parseLineList l) 0 = "") →
    ∀ it ∈ csvRows 7 (mkJapaneseWord now) i ls, ∃ j, i ≤ j ∧ it.id = synthId now j := by
  intro ls
  induction ls with
  | nil => simp [csvRows]
  | cons l t ih =>
    intro i h it hit
    rw [csvRows] at hit
    by_cases hlen : (parseLineList l).length < 7
    · rw [if_pos hlen] at hit
      obtain ⟨j, hj, hid⟩ := ih (i + 1) (fun x hx => h x (by simp [hx])) it hit
      exact ⟨j, by omega, hid⟩
    · rw [if_neg hlen] at hit
      rcases List.mem_cons.mp hit with rfl | hit
      · refine ⟨i, le_refl i, ?_⟩
        show jsStrOr (colD (parseLineList l) 0) (synthId now i) = synthId now i
        rw [h l (by simp), jsStrOr, if_pos rfl]
      · obtain ⟨j, hj, hid⟩ := ih (i + 1) (fun x hx => h x (by simp [hx])) it hit
        exact ⟨j, by omega, hid⟩

theorem csvRows_jap_pairwise (now : Nat) :
    ∀ (ls : List (List Char)) (i : Nat),
    (∀ l ∈ ls, colD (parseLineList l) 0 = "") →
    ((csvRows 7 (mkJapaneseWord now) i ls).map (·.id)).Pairwise (· ≠ ·) := by
  intro ls
  induction ls with
  | nil => simp [csvRows]
  | cons l t ih =>
    intro i h
    rw [csvRows]
    by_cases hlen : (parseLineList l).length < 7
    · rw [if_pos hlen]
      exact ih (i + 1) (fun x hx => h x (by simp [hx]))
    · rw [if_neg hlen, List.map_cons, List.pairwise_cons]
      constructor
      · intro idv hidv
        obtain ⟨it, hit, rfl⟩ := List.mem_map.mp hidv
        obtain ⟨j, hj, hid⟩ :=
          csvRows_jap_synth now t (i + 1) (fun x hx => h x (by simp [hx])) it hit
        have hhead : (mkJapaneseWord now i (parseLineList l)).id = synthId now i := by
          show jsStrOr (colD (parseLineList l) 0) (synthId now i) = synthId now i
          rw [h l (by simp), jsStrOr, if_pos rfl]
        rw [hhead, hid]
        intro heq
        have := synthId_inj now heq
        omega
      · exact ih (i + 1) (fun x hx => h x (by simp [hx]))

/-- Claim C8 (confirmed): when the id cell of every data row is absent
(falsy), each parsed record's id is synthesised as current time followed by
the 1-based row index, and the ids of one import batch are pairwise
distinct.  (`Date.now()` is modelled as the single time instant `now`
passed to the parse call.) -/
theorem C8_synth_ids (now : Nat) (csvText : String)
    (h : ∀ l ∈ dataLines csvText, colD (parseLineList l) 0 = "") :
    (∀ it ∈ parseJapaneseCSV now csvText, ∃ j, 1 ≤ j ∧ it.id = synthId now j) ∧
    ((parseJapaneseCSV now csvText).map (·.id)).Pairwise (· ≠ ·) :=
  ⟨csvRows_jap_synth now (dataLines csvText) 1 h,
   csvRows_jap_pairwise now (dataLines csvText) 1 h⟩

/-- Witness for C8 on a two-row import whose id cells are both empty. -/
theorem C8_witness :
    (∀ l ∈ dataLines "H\n,w,r,m,j,e,t,5\n,w2,r2,m2,j2,e2,t2,6",
      colD (parseLineList l) 0 = "") ∧
    ((∀ it ∈ parseJapaneseCSV 4 "H\n,w,r,m,j,e,t,5\n,w2,r2,m2,j2,e2,t2,6",
        ∃ j, 1 ≤ j ∧ it.id = synthId 4 j) ∧
      ((parseJapaneseCSV 4 "H\n,w,r,m,j,e,t,5\n,w2,r2,m2,j2,e2,t2,6").map
          (·.id)).Pairwise (· ≠ ·)) :=
  ⟨by decide, C8_synth_ids 4 "H\n,w,r,m,j,e,t,5\n,w2,r2,m2,j2,e2,t2,6" (by decide)⟩

-- ## Claim C9

/-- Claim C9 (confirmed): on merge-import, Vocabulary deduplicates by
`word` and TravelSpot by `name`: an incoming record whose key is absent
from the held list is kept (prepended block), the whole merge keeps the
held records, and when every incoming key already occurs the length is
unchanged; in particular importing a Vocabulary CSV whose only word is
already present leaves the list length unchanged. -/
theorem C9_merge_dedup :
    (∀ (prev newItems : List JapaneseWord),
      (∀ it ∈ newItems, it.word ∈ prev.map (·.word)) →
      (mergeJapaneseImport prev newItems).length = prev.length) ∧
    (∀ (prev newItems : List TravelSpot),
      (∀ it ∈ newItems, it.name ∈ prev.map (·.name)) →
      (mergeTravelImport prev newItems).length = prev.length) ∧
    (∀ (prev newItems : List JapaneseWord) (it : JapaneseWord), it ∈ newItems →
      it.word ∉ prev.map (·.word) → it ∈ mergeJapaneseImport prev newItems) ∧
    ((mergeJapaneseImport
        [{ id := "9", word := "犬", reading := "いぬ", meaning := "狗",
           meaningJP := "イヌ", exampleSentence := "ex", exampleTranslation := "tr",
           addedAt := 3 }]
        (parseJapaneseCSV 0 "H\n2,犬,inu,dog,inu,e,t,5")).length = 1) := by
  refine ⟨?_, ?_, ?_, by decide⟩
  · intro prev newItems h
    rw [mergeJapaneseImport, List.length_append,
      show newItems.filter (fun it => !(prev.map (·.word)).contains it.word) = []
        from List.filter_eq_nil_iff.mpr ?_]
    · simp
    · intro it hit
      simp [List.contains, List.elem_eq_mem, h it hit]
  · intro prev newItems h
    rw [mergeTravelImport, List.length_append,
      show newItems.filter (fun it => !(prev.map (·.name)).contains it.name) = []
        from List.filter_eq_nil_iff.mpr ?_]
    · simp
    · intro it hit
      simp [List.contains, List.elem_eq_mem, h it hit]
  · intro prev newItems it hit hnot
    rw [mergeJapaneseImport]
    refine List.mem_append.mpr (Or.inl ?_)
    rw [List.mem_filter]
    refine ⟨hit, ?_⟩
    simp [List.contains, List.elem_eq_mem, hnot]

/-- Witness for C9: a one-record import whose only word already exists. -/
theorem C9_witness :
    (∀ it ∈ parseJapaneseCSV 0 "H\n2,犬,inu,dog,inu,e,t,5",
      it.word ∈ ([{ id := "9", word := "犬", reading := "いぬ", meaning := "狗",
                    meaningJP := "イヌ", exampleSentence := "ex",
                    exampleTranslation := "tr",
                    addedAt := 3 }] : List JapaneseWord).map (·.word)) ∧
    (mergeJapaneseImport
        [{ id := "9", word := "犬", reading := "いぬ", meaning := "狗",
           meaningJP := "イヌ", exampleSentence := "ex", exampleTranslation := "tr",
           addedAt := 3 }]
        (parseJapaneseCSV 0 "H\n2,犬,inu,dog,inu,e,t,5")).length = 1 :=
  ⟨by decide, C9_merge_dedup.1
      [{ id := "9", word := "犬", reading := "いぬ", meaning := "狗",
         meaningJP := "イヌ", exampleSentence := "ex", exampleTranslation := "tr",
         addedAt := 3 }]
      (parseJapaneseCSV 0 "H\n2,犬,inu,dog,inu,e,t,5") (by decide)⟩

